import Mathlib

/-!
Verification of the task-orchestration core of the `tagent` repository
(`src/intent_system/...`): the expression resolver (`data_flow/data_flow_engine.py`),
the registry (`core/intent_registry.py`), the orchestrator
(`orchestration/orchestrator.py`), and the executor/tracker
(`execution/intent_executor.py`, `execution/execution_tracker.py`).

The Python code is embedded shallowly:
* Python runtime values are the inductive `Value` (Python `None` is `Value.none`);
* Python `dict`s are insertion-ordered association lists `List (String × α)`
  with first-key-wins lookup and update-in-place assignment, matching CPython;
* stateful objects (tracker, executor call counters) become explicit state records;
* `time.time()` becomes a logical clock (claims never depend on real durations);
* library calls (`re.findall` on the fixed pattern, `json.loads`, `int()`, `float()`,
  `str.replace`, `str.split`, `str.strip`) are reimplemented with their CPython
  semantics on the inputs a `str` can take;
* the recursive retry in `execute_single_intent` does not structurally terminate,
  so the executor takes an explicit fuel counter; `Option.none` marks fuel
  exhaustion (divergence), never a program result.
-/

set_option autoImplicit false

namespace IntentSystem

/-- Python runtime values as they flow through the engine.  `Value.none` is the
Python `None`; floats never participate in arithmetic in the verified paths, so a
float is carried as its accepted source literal. -/
inductive Value where
  | none
  | bool (b : Bool)
  | int (n : Int)
  | float (lit : String)
  | str (s : String)
  | list (xs : List Value)
  | dict (entries : List (String × Value))
deriving Repr

/-- `value is None` in Python. -/
def Value.isNone : Value → Bool
  | .none => true
  | _ => false

/-! ### Association lists modelling Python `dict` -/

/-- `d.get(k)` returning `Option`: `some` iff the key is present. -/
def alGet {α : Type} : List (String × α) → String → Option α
  | [], _ => Option.none
  | (k, v) :: t, key => if k = key then some v else alGet t key

/-- `d.get(k, dflt)` / `d[k]` with a default. -/
def alGetD {α : Type} (l : List (String × α)) (key : String) (dflt : α) : α :=
  (alGet l key).getD dflt

/-- `k in d`. -/
def alContains {α : Type} (l : List (String × α)) (key : String) : Bool :=
  (alGet l key).isSome

/-- `d[k] = v`: update in place if the key exists, else append (CPython
insertion-order semantics). -/
def alSet {α : Type} : List (String × α) → String → α → List (String × α)
  | [], key, v => [(key, v)]
  | (k, w) :: t, key, v => if k = key then (k, v) :: t else (k, w) :: alSet t key v

/-- `del d[k]` (removes the unique binding of the key if present). -/
def alErase {α : Type} : List (String × α) → String → List (String × α)
  | [], _ => []
  | (k, w) :: t, key => if k = key then t else (k, w) :: alErase t key

/-- `d1.update(d2)`, entry by entry. -/
def dict_update {α : Type} : List (String × α) → List (String × α) → List (String × α)
  | r, [] => r
  | r, (k, v) :: t => dict_update (alSet r k v) t

/-! ### Character/string utilities with CPython semantics -/

/-- Python `str.isspace` on one character (the whitespace class used by
`strip()` and the regex `\s` on ASCII input). -/
def pyIsSpace (c : Char) : Bool :=
  c = ' ' || c = '\t' || c = '\n' || c = '\r' || c = '\x0b' || c = '\x0c'

/-- ASCII decimal digit (the inputs the engine handles are ASCII; Python
`str.isdigit` agrees with this on them). -/
def pyIsDigit (c : Char) : Bool :=
  '0' ≤ c && c ≤ '9'

/-- One character of Python `str.isdigit`: true for decimal digits and for
characters of Numeric_Type=Digit, which `int()` nevertheless rejects.  On the
character universe this development exercises that is the ASCII digits plus
the superscript digits ¹ ² ³ (other Unicode digit classes are unused). -/
def pyIsDigitChar (c : Char) : Bool :=
  pyIsDigit c || c = '¹' || c = '²' || c = '³'

/-- Python `str.isdigit`: nonempty and all digit characters. -/
def py_isdigit (s : String) : Bool :=
  !s.data.isEmpty && s.data.all pyIsDigitChar

/-- Numeric value of an ASCII digit string (callers guard with
`decimalNat`). -/
def digitsToNat (s : String) : Nat :=
  s.data.foldl (fun n c => n * 10 + (c.toNat - '0'.toNat)) 0

/-- Python `int(s)` applied to a string that passed `str.isdigit`: it
succeeds exactly on ASCII decimal digits of this development's character
universe and raises `ValueError` on digit-but-not-decimal characters such
as `'²'`.  `Option.none` stands for that raise; the caller decides whether
the exception is visible (`getNestedLoopExc`) or collapsed
(`getNestedLoop`). -/
def decimalNat (s : String) : Option Nat :=
  if !s.data.isEmpty && s.data.all pyIsDigit then some (digitsToNat s)
  else Option.none

/-- Is `pat` a prefix of `s` (char lists)? -/
def listIsPrefix : List Char → List Char → Bool
  | [], _ => true
  | _ :: _, [] => false
  | p :: ps, c :: cs => p = c && listIsPrefix ps cs

/-- Does `pat` occur in `s` (char lists)?  Models Python `pat in s`. -/
def listContainsSub (pat : List Char) : List Char → Bool
  | [] => pat.isEmpty
  | c :: cs => listIsPrefix pat (c :: cs) || listContainsSub pat cs

/-- Python `pat in s` for strings. -/
def strContainsSub (s pat : String) : Bool :=
  listContainsSub pat.data s.data

/-- Python `str.strip()` (default whitespace). -/
def py_strip (s : String) : String :=
  String.mk (((s.data.dropWhile pyIsSpace).reverse.dropWhile pyIsSpace).reverse)

/-- Python `s.startswith(pat)`. -/
def py_startswith (s pat : String) : Bool :=
  listIsPrefix pat.data s.data

/-- Python `s.endswith(pat)`. -/
def py_endswith (s pat : String) : Bool :=
  listIsPrefix pat.data.reverse s.data.reverse

/-- One step of Python `str.replace`: if `pat` starts here, splice `rep`.
Structural on a fuel that each step's one-or-more consumed characters keep
ahead of the text, so a fuel of the text length is exact. -/
def listReplaceAux (pat rep : List Char) : Nat → List Char → List Char
  | _, [] => []
  | 0, cs => cs
  | fuel + 1, c :: cs =>
    if listIsPrefix pat (c :: cs) && !pat.isEmpty then
      rep ++ listReplaceAux pat rep fuel (List.drop (pat.length - 1) cs)
    else
      c :: listReplaceAux pat rep fuel cs

/-- Python `s.replace(pat, rep)` (all non-overlapping occurrences, left to
right; the engine never calls it with an empty pattern). -/
def py_replace (s pat rep : String) : String :=
  String.mk (listReplaceAux pat.data rep.data s.data.length s.data)

/-- Split on a separator (char-list form of Python `str.split(sep)` for a
nonempty separator); fuel as in `listReplaceAux`. -/
def listSplitOnAux (sep : List Char) : Nat → List Char → List (List Char)
  | _, [] => [[]]
  | 0, cs => [cs]
  | fuel + 1, c :: cs =>
    if listIsPrefix sep (c :: cs) && !sep.isEmpty then
      [] :: listSplitOnAux sep fuel (List.drop (sep.length - 1) cs)
    else
      match listSplitOnAux sep fuel cs with
      | [] => [[c]]
      | g :: gs => (c :: g) :: gs

/-- Python `s.split(sep)` for a nonempty separator. -/
def py_split (s sep : String) : List String :=
  (listSplitOnAux sep.data s.data.length s.data).map String.mk

/-! ### Python `str()` / `repr()` on values -/

mutual

/-- Python `repr`, used for values nested in containers (single-quoted
strings; floats print their accepted literal). -/
def pyRepr : Value → String
  | .none => "None"
  | .bool true => "True"
  | .bool false => "False"
  | .int n => toString n
  | .float lit => lit
  | .str s => "\x27" ++ s ++ "\x27"
  | .list xs => "[" ++ pyReprList xs ++ "]"
  | .dict es => "\x7b" ++ pyReprEntries es ++ "\x7d"

def pyReprList : List Value → String
  | [] => ""
  | [x] => pyRepr x
  | x :: y :: t => pyRepr x ++ ", " ++ pyReprList (y :: t)

def pyReprEntries : List (String × Value) → String
  | [] => ""
  | [(k, v)] => "\x27" ++ k ++ "\x27: " ++ pyRepr v
  | (k, v) :: e :: t => "\x27" ++ k ++ "\x27: " ++ pyRepr v ++ ", " ++ pyReprEntries (e :: t)

end

/-- Python `str()`: like `repr` except a string prints bare. -/
def pyStr (v : Value) : String :=
  match v with
  | .str s => s
  | _ => pyRepr v

mutual

/-- Python `x == y` on values (`not in` for the schema enum check). -/
def valueBeq : Value → Value → Bool
  | .none, .none => true
  | .bool a, .bool b => a = b
  | .int a, .int b => a = b
  | .float a, .float b => a = b
  | .str a, .str b => a = b
  | .list xs, .list ys => valueListBeq xs ys
  | .dict xs, .dict ys => valueEntriesBeq xs ys
  | _, _ => false

def valueListBeq : List Value → List Value → Bool
  | [], [] => true
  | x :: xs, y :: ys => valueBeq x y && valueListBeq xs ys
  | _, _ => false

def valueEntriesBeq : List (String × Value) → List (String × Value) → Bool
  | [], [] => true
  | (k1, v1) :: t1, (k2, v2) :: t2 => k1 = k2 && valueBeq v1 v2 && valueEntriesBeq t1 t2
  | _, _ => false

end

/-! ### CPython `int()` and `float()` on strings -/

/-- Digit run with PEP-515 underscores (single `_` between digits), continuing
an already-seen digit; returns the accumulated value. -/
def intDigitsLoop : Nat → List Char → Option Nat
  | acc, [] => some acc
  | acc, '_' :: rest =>
    match rest with
    | c :: cs => if pyIsDigit c then intDigitsLoop (acc * 10 + (c.toNat - '0'.toNat)) cs
                 else Option.none
    | [] => Option.none
  | acc, c :: cs =>
    if pyIsDigit c then intDigitsLoop (acc * 10 + (c.toNat - '0'.toNat)) cs
    else Option.none

/-- A nonempty underscore-grouped digit run, fully consuming its input. -/
def digitRun : List Char → Option Nat
  | c :: cs => if pyIsDigit c then intDigitsLoop (c.toNat - '0'.toNat) cs else Option.none
  | [] => Option.none

/-- CPython `int(s)` for base 10 (whitespace-stripped, optional sign,
underscore-grouped ASCII digits); `Option.none` models the raised
`ValueError`. -/
def py_int (s : String) : Option Int :=
  match (py_strip s).data with
  | '-' :: rest => (digitRun rest).map (fun n => -(n : Int))
  | '+' :: rest => (digitRun rest).map (fun n => (n : Int))
  | rest => (digitRun rest).map (fun n => (n : Int))

/-- Skip a digit run with grouping underscores, returning the rest. -/
def floatDigitsGo : List Char → List Char
  | '_' :: c2 :: cs2 => if pyIsDigit c2 then floatDigitsGo cs2 else '_' :: c2 :: cs2
  | c2 :: cs2 => if pyIsDigit c2 then floatDigitsGo cs2 else c2 :: cs2
  | [] => []

/-- Digit run with underscores that stops at the first non-digit, returning
the rest (for the `float()` grammar). -/
def floatDigits : List Char → Option (List Char)
  | c :: cs => if pyIsDigit c then some (floatDigitsGo cs) else Option.none
  | [] => Option.none

/-- Exponent suffix (or nothing) at the end of a `float()` literal. -/
def floatExpOk (cs : List Char) : Bool :=
  match cs with
  | [] => true
  | e :: rest =>
    if e = 'e' || e = 'E' then
      let rest := match rest with
                  | '+' :: r => r
                  | '-' :: r => r
                  | r => r
      match floatDigits rest with
      | some [] => true
      | _ => false
    else false

/-- Mantissa-plus-exponent body of a `float()` literal (after the sign). -/
def floatBodyOk (cs : List Char) : Bool :=
  let lower := cs.map Char.toLower
  if lower = "inf".data || lower = "infinity".data || lower = "nan".data then true
  else
    match floatDigits cs with
    | some rest =>
      match rest with
      | '.' :: r2 =>
        (match floatDigits r2 with
         | some r3 => floatExpOk r3
         | Option.none => floatExpOk r2)
      | _ => floatExpOk rest
    | Option.none =>
      match cs with
      | '.' :: r2 =>
        (match floatDigits r2 with
         | some r3 => floatExpOk r3
         | Option.none => false)
      | _ => false

/-- CPython `float(s)`: acceptance of the stripped literal; the accepted value
is carried as its literal text (`Value.float`).  `Option.none` models the
raised `ValueError`. -/
def py_float (s : String) : Option Value :=
  let t := py_strip s
  let accepted :=
    match t.data with
    | '-' :: rest => floatBodyOk rest
    | '+' :: rest => floatBodyOk rest
    | rest => floatBodyOk rest
  if accepted then some (.float t) else Option.none

/-! ### `json.loads`, modelled as a recursive-descent parser

Recursion depth is spent on container nesting only (element and member
loops are iterative, as in CPython's scanner); nesting beyond the
interpreter recursion limit is the `RecursionError` that `evaluate` does
not catch, kept distinct from the caught `JSONDecodeError`. -/

/-- JSON insignificant whitespace. -/
def jsonWs (c : Char) : Bool :=
  c = ' ' || c = '\t' || c = '\n' || c = '\r'

/-- Value of a hexadecimal digit (by code point: 0-9, a-f, A-F). -/
def hexVal (c : Char) : Option Nat :=
  let n := c.toNat
  if 48 ≤ n && n ≤ 57 then some (n - 48)
  else if 97 ≤ n && n ≤ 102 then some (n - 87)
  else if 65 ≤ n && n ≤ 70 then some (n - 55)
  else Option.none

/-- JSON string body after the opening quote; `acc` is reversed; fuel is one
unit per consumed character. -/
def parseJsonStringAux : Nat → List Char → List Char → Option (String × List Char)
  | 0, _, _ => Option.none
  | fuel + 1, acc, cs =>
    match cs with
    | '"' :: r => some (String.mk acc.reverse, r)
    | '\\' :: r =>
      (match r with
       | '"' :: r2 => parseJsonStringAux fuel ('"' :: acc) r2
       | '\\' :: r2 => parseJsonStringAux fuel ('\\' :: acc) r2
       | '/' :: r2 => parseJsonStringAux fuel ('/' :: acc) r2
       | 'b' :: r2 => parseJsonStringAux fuel ('\x08' :: acc) r2
       | 'f' :: r2 => parseJsonStringAux fuel ('\x0c' :: acc) r2
       | 'n' :: r2 => parseJsonStringAux fuel ('\n' :: acc) r2
       | 'r' :: r2 => parseJsonStringAux fuel ('\r' :: acc) r2
       | 't' :: r2 => parseJsonStringAux fuel ('\t' :: acc) r2
       | 'u' :: a :: b :: c :: d :: r2 =>
         (match hexVal a, hexVal b, hexVal c, hexVal d with
          | some ha, some hb, some hc, some hd =>
            parseJsonStringAux fuel
              (Char.ofNat (((ha * 16 + hb) * 16 + hc) * 16 + hd) :: acc) r2
          | _, _, _, _ => Option.none)
       | _ => Option.none)
    | c :: r => if c.toNat < 0x20 then Option.none else parseJsonStringAux fuel (c :: acc) r
    | [] => Option.none

/-- Greedy decimal accumulation for the JSON number scanner. -/
def jsonDigitsGo (acc : Nat) : List Char → Nat × List Char
  | c2 :: cs2 => if pyIsDigit c2 then jsonDigitsGo (acc * 10 + (c2.toNat - '0'.toNat)) cs2
                 else (acc, c2 :: cs2)
  | [] => (acc, [])

/-- Plain digit run (no underscores: JSON forbids them), value and rest. -/
def jsonDigits : List Char → Option (Nat × List Char)
  | c :: cs =>
    if pyIsDigit c then some (jsonDigitsGo (c.toNat - '0'.toNat) cs)
    else Option.none
  | [] => Option.none

/-- JSON number: integer part without leading zeros, optional fraction and
exponent; an integral literal yields `Value.int`, otherwise `Value.float`
carrying the consumed literal. -/
def parseJsonNumber (cs : List Char) : Option (Value × List Char) :=
  let (neg, cs1) := match cs with
                    | '-' :: r => (true, r)
                    | r => (false, r)
  let intPart : Option (Nat × List Char) :=
    match cs1 with
    | '0' :: r => some (0, r)
    | _ => jsonDigits cs1
  match intPart with
  | Option.none => Option.none
  | some (n, r1) =>
    let (hasFrac, r2) := match r1 with
                         | '.' :: rf =>
                           (match jsonDigits rf with
                            | some (_, rf2) => (true, rf2)
                            | Option.none => (true, ['.']) )
                         | r => (false, r)
    if hasFrac && r2 = ['.'] then Option.none
    else
      let (hasExp, expOk, r3) :=
        match r2 with
        | e :: re =>
          if e = 'e' || e = 'E' then
            let re2 := match re with
                       | '+' :: r => r
                       | '-' :: r => r
                       | r => r
            match jsonDigits re2 with
            | some (_, re3) => (true, true, re3)
            | Option.none => (true, false, re2)
          else (false, true, e :: re)
        | [] => (false, true, [])
      if hasExp && !expOk then Option.none
      else if hasFrac || hasExp then
        let consumed := cs.take (cs.length - r3.length)
        some (.float (String.mk consumed), r3)
      else
        some (.int (if neg then -(n : Int) else (n : Int)), r3)

/-- Result of one scan step of the `json` parser: a value with the
unconsumed rest, a `JSONDecodeError` (which `evaluate` catches), or the
`RecursionError` CPython raises when nesting exceeds the interpreter
recursion limit (which nothing in the engine catches). -/
inductive JsonRes where
  | ok (v : Value) (rest : List Char)
  | decodeError
  | recursionError

/-- CPython's default `sys.getrecursionlimit()`, bounding `json` nesting. -/
def pyRecursionLimit : Nat := 1000

/-- Comma-separated array elements up to `]`, iterating with `pv` for each
element exactly as the scanner's element loop does: the loop itself is
iterative, so only the per-element value parse spends recursion depth.  Its
own fuel is one unit per consumed character and cannot run out before a
decode error surfaces (every element consumes at least one character). -/
def parseJsonElemsGo (pv : List Char → JsonRes) :
    Nat → List Char → List Value → JsonRes
  | 0, _, _ => .decodeError
  | efuel + 1, cs, acc =>
    match pv cs with
    | .ok v r =>
      (match r.dropWhile jsonWs with
       | ',' :: r2 => parseJsonElemsGo pv efuel r2 (acc ++ [v])
       | ']' :: r2 => .ok (.list (acc ++ [v])) r2
       | _ => .decodeError)
    | .decodeError => .decodeError
    | .recursionError => .recursionError

/-- Comma-separated `"key": value` members up to the closing brace, the
object counterpart of `parseJsonElemsGo`. -/
def parseJsonMembersGo (pv : List Char → JsonRes) :
    Nat → List Char → List (String × Value) → JsonRes
  | 0, _, _ => .decodeError
  | efuel + 1, cs, acc =>
    match cs.dropWhile jsonWs with
    | '"' :: r =>
      (match parseJsonStringAux (r.length + 1) [] r with
       | some (k, r1) =>
         (match r1.dropWhile jsonWs with
          | ':' :: r2 =>
            (match pv r2 with
             | .ok v r3 =>
               (match r3.dropWhile jsonWs with
                | ',' :: r4 => parseJsonMembersGo pv efuel r4 (alSet acc k v)
                | '\x7d' :: r4 => .ok (.dict (alSet acc k v)) r4
                | _ => .decodeError)
             | .decodeError => .decodeError
             | .recursionError => .recursionError)
          | _ => .decodeError)
       | Option.none => .decodeError)
    | _ => .decodeError

/-- One JSON value plus the unconsumed rest (CPython `json` scanner,
including its non-standard `NaN`/`Infinity` acceptance).  Recursion depth is
spent only on container nesting; exhausting it is the uncaught
`RecursionError`. -/
def parseJsonValueExc : Nat → List Char → JsonRes
  | 0, _ => .recursionError
  | depth + 1, cs =>
    let cs := cs.dropWhile jsonWs
    if listIsPrefix "null".data cs then .ok .none (cs.drop 4)
    else if listIsPrefix "true".data cs then .ok (.bool true) (cs.drop 4)
    else if listIsPrefix "false".data cs then .ok (.bool false) (cs.drop 5)
    else if listIsPrefix "NaN".data cs then .ok (.float "nan") (cs.drop 3)
    else if listIsPrefix "Infinity".data cs then .ok (.float "inf") (cs.drop 8)
    else if listIsPrefix "-Infinity".data cs then .ok (.float "-inf") (cs.drop 9)
    else
      match cs with
      | '"' :: r =>
        (match parseJsonStringAux (r.length + 1) [] r with
         | some p => .ok (.str p.1) p.2
         | Option.none => .decodeError)
      | '[' :: r =>
        (match r.dropWhile jsonWs with
         | ']' :: r2 => .ok (.list []) r2
         | r2 => parseJsonElemsGo (parseJsonValueExc depth) (r2.length + 1) r2 [])
      | '\x7b' :: r =>
        (match r.dropWhile jsonWs with
         | '\x7d' :: r2 => .ok (.dict []) r2
         | r2 => parseJsonMembersGo (parseJsonValueExc depth) (r2.length + 1) r2 [])
      | _ =>
        match parseJsonNumber cs with
        | some p => .ok p.1 p.2
        | Option.none => .decodeError

/-- Outcome of `json.loads`: a document, a caught `JSONDecodeError`, or the
uncaught `RecursionError`. -/
inductive JsonOutcome where
  | ok (v : Value)
  | decodeError
  | recursionError

/-- CPython `json.loads` with the exception channel explicit: parse one
document within the recursion limit and require only whitespace to
remain. -/
def json_loadsExc (s : String) : JsonOutcome :=
  match parseJsonValueExc pyRecursionLimit s.data with
  | .ok v rest => if rest.dropWhile jsonWs = [] then .ok v else .decodeError
  | .decodeError => .decodeError
  | .recursionError => .recursionError

/-- `json.loads` at `Option` type, as the total-fragment `evaluate` consumes
it: `Option.none` is the caught `JSONDecodeError`.  An `Option` cannot carry
the uncaught `RecursionError`, so this projection collapses it into `none`
as well — `evaluateExc` below is the embedding that keeps it visible. -/
def json_loads (s : String) : Option Value :=
  match json_loadsExc s with
  | .ok v => some v
  | _ => Option.none

/-! ### `ExpressionParser` (`data_flow/data_flow_engine.py`)

The compiled pattern is `\{\{\s*\$json\.([^}]+)\s*\}\}`.  Because `[^}]+` is
greedy and cannot cross a brace, a successful match always takes the maximal
non-brace run as the group (so any whitespace before the closing braces stays
inside the group) and requires the two closing braces to follow immediately;
`re.findall` scans non-overlapping matches left to right, advancing one
character on failure. -/

/-- Try to match the n8n pattern at the start of the text; on success return
the captured group and the text after the whole match. -/
def matchN8nAt (cs : List Char) : Option (String × List Char) :=
  match cs with
  | '\x7b' :: '\x7b' :: r =>
    (match r.dropWhile pyIsSpace with
     | '$' :: 'j' :: 's' :: 'o' :: 'n' :: '.' :: r2 =>
       let cap := r2.takeWhile (fun c => c ≠ '\x7d')
       if cap.isEmpty then Option.none
       else
         (match r2.dropWhile (fun c => c ≠ '\x7d') with
          | '\x7d' :: '\x7d' :: r3 => some (String.mk cap, r3)
          | _ => Option.none)
     | _ => Option.none)
  | _ => Option.none

/-- The left-to-right scan of `re.findall` (fuel: one unit per character). -/
def findallAux : Nat → List Char → List String
  | 0, _ => []
  | _, [] => []
  | fuel + 1, c :: t =>
    match matchN8nAt (c :: t) with
    | some (cap, rest) => cap :: findallAux fuel rest
    | Option.none => findallAux fuel t

/-- `self.n8n_pattern.findall(expr)`. -/
def n8n_findall (s : String) : List String :=
  findallAux s.data.length s.data

/-- `ExpressionParser._parse_path`: replace `[` by `.[`, split on dots, drop
empty parts, strip `]` characters. -/
def parse_path (path : String) : List String :=
  let p := py_replace path "[" ".["
  ((py_split p ".").filter (fun part => part ≠ "")).map (fun part => py_replace part "]" "")

/-- The key-walking loop of `ExpressionParser._get_nested_value`, on its
non-raising fragment: when a digit key is not a decimal integer (`int(key)`
raises `ValueError` on a list value in the source), this total model
collapses the uncaught raise into the `None` fallback — the exception-aware
`getNestedLoopExc` below keeps it visible. -/
def getNestedLoop : List String → Value → Value
  | [], v => v
  | k :: ks, v =>
    if v.isNone then .none
    else if py_isdigit k then
      match v with
      | .list xs =>
        (match decimalNat k with
         | some n => if n < xs.length then getNestedLoop ks (xs.getD n .none) else .none
         | Option.none => .none)
      | _ => .none
    else
      match v with
      | .dict entries => getNestedLoop ks (alGetD entries k .none)
      | _ => .none

/-- `ExpressionParser._get_nested_value(data, path)`. -/
def get_nested_value (data : List (String × Value)) (path : String) : Value :=
  if data.isEmpty then .none
  else getNestedLoop (parse_path path) (.dict data)

/-- `ExpressionParser._evaluate_n8n_expression(expr, context)`. -/
def evaluate_n8n_expression (expr : String) (context : List (String × Value)) : Value :=
  let ms := n8n_findall expr
  match ms with
  | [] => .str expr
  | m :: rest =>
    if rest.isEmpty && py_startswith (py_strip expr) "\x7b\x7b"
        && py_endswith (py_strip expr) "\x7d\x7d" then
      let value := get_nested_value context m
      if !value.isNone then value else .str expr
    else
      .str ((m :: rest).foldl (fun result mt =>
        let value := get_nested_value context mt
        if !value.isNone then
          py_replace result ("\x7b\x7b $json." ++ mt ++ " \x7d\x7d") (pyStr value)
        else result) expr)

/-- `ExpressionParser.evaluate(expression, context)` on its non-raising
fragment: the two uncaught exception paths (`RecursionError` out of
`json.loads`, `ValueError` out of `int(key)` in `_get_nested_value`) are
collapsed into the literal/`None` fallbacks here; `evaluateExc` below is the
same function with the exception channel explicit, and is the authority for
raise behaviour. -/
def evaluate (expression : String) (context : List (String × Value)) : Value :=
  if strContainsSub expression "\x7b\x7b" && strContainsSub expression "\x7d\x7d" then
    evaluate_n8n_expression expression context
  else if py_startswith expression "$" && !strContainsSub expression "\x7b\x7b" then
    match alGet context (String.mk expression.data.tail) with
    | some v => v
    | Option.none => .str expression
  else if py_startswith expression "\x7b" || py_startswith expression "[" then
    match json_loads expression with
    | some v => v
    | Option.none => .str expression
  else if strContainsSub expression "." then
    match py_float expression with
    | some v => v
    | Option.none => .str expression
  else
    match py_int expression with
    | some n => .int n
    | Option.none => .str expression

/-- `DataFlowEngine.resolve_mapping(mapping, previous_results)`. -/
def resolve_mapping (mapping : List (String × String))
    (previous_results : List (String × Value)) : List (String × Value) :=
  mapping.foldl (fun resolved p => alSet resolved p.1 (evaluate p.2 previous_results)) []

/-! ### `ExpressionParser.evaluate` with the exception channel explicit

`evaluate` catches only `json.JSONDecodeError` and the `ValueError` of
`int()`/`float()` on the literal branch.  Two exceptions escape it: the
`RecursionError` that `json.loads` raises on nesting beyond the interpreter
recursion limit, and the `ValueError` that `int(key)` raises inside
`_get_nested_value` when a path key passes `str.isdigit` without being a
decimal integer while the current value is a list.  The `...Exc` functions
re-embed the same source lines with those raises visible. -/

/-- An exception escaping `ExpressionParser.evaluate`. -/
inductive PyExc where
  | valueError (msg : String)
  | recursionError

/-- `ExpressionParser._get_nested_value`'s key loop with the raise kept:
`int(key) < len(value)` evaluates `int(key)` only after the
`isinstance(value, list)` test, and raises `ValueError` when the
digit-passing key is not decimal. -/
def getNestedLoopExc : List String → Value → Except PyExc Value
  | [], v => .ok v
  | k :: ks, v =>
    if v.isNone then .ok .none
    else if py_isdigit k then
      match v with
      | .list xs =>
        (match decimalNat k with
         | some n =>
           if n < xs.length then getNestedLoopExc ks (xs.getD n .none) else .ok .none
         | Option.none =>
           .error (.valueError
             ("invalid literal for int() with base 10: \x27" ++ k ++ "\x27")))
      | _ => .ok .none
    else
      match v with
      | .dict entries => getNestedLoopExc ks (alGetD entries k .none)
      | _ => .ok .none

/-- `ExpressionParser._get_nested_value` with the raise kept. -/
def get_nested_valueExc (data : List (String × Value)) (path : String) :
    Except PyExc Value :=
  if data.isEmpty then .ok .none
  else getNestedLoopExc (parse_path path) (.dict data)

/-- The multi-match replacement loop of `_evaluate_n8n_expression`: the first
raising lookup aborts the loop exactly as the Python `for` does. -/
def n8nReplaceLoopExc (context : List (String × Value)) :
    List String → String → Except PyExc String
  | [], result => .ok result
  | mt :: rest, result =>
    match get_nested_valueExc context mt with
    | .error e => .error e
    | .ok value =>
      n8nReplaceLoopExc context rest
        (if !value.isNone then
           py_replace result ("\x7b\x7b $json." ++ mt ++ " \x7d\x7d") (pyStr value)
         else result)

/-- `ExpressionParser._evaluate_n8n_expression` with the raise kept. -/
def evaluate_n8n_expressionExc (expr : String) (context : List (String × Value)) :
    Except PyExc Value :=
  let ms := n8n_findall expr
  match ms with
  | [] => .ok (.str expr)
  | m :: rest =>
    if rest.isEmpty && py_startswith (py_strip expr) "\x7b\x7b"
        && py_endswith (py_strip expr) "\x7d\x7d" then
      match get_nested_valueExc context m with
      | .error e => .error e
      | .ok value => .ok (if !value.isNone then value else .str expr)
    else
      (n8nReplaceLoopExc context (m :: rest) expr).map Value.str

/-- `ExpressionParser.evaluate` with the exception channel explicit; on every
input where no exception escapes it returns `.ok` of what `evaluate`
computes. -/
def evaluateExc (expression : String) (context : List (String × Value)) :
    Except PyExc Value :=
  if strContainsSub expression "\x7b\x7b" && strContainsSub expression "\x7d\x7d" then
    evaluate_n8n_expressionExc expression context
  else if py_startswith expression "$" && !strContainsSub expression "\x7b\x7b" then
    .ok (match alGet context (String.mk expression.data.tail) with
         | some v => v
         | Option.none => .str expression)
  else if py_startswith expression "\x7b" || py_startswith expression "[" then
    match json_loadsExc expression with
    | .ok v => .ok v
    | .decodeError => .ok (.str expression)
    | .recursionError => .error .recursionError
  else if strContainsSub expression "." then
    .ok (match py_float expression with
         | some v => v
         | Option.none => .str expression)
  else
    .ok (match py_int expression with
         | some n => .int n
         | Option.none => .str expression)

/-! ### Data model (`core/intent_definition.py`, `core/state.py`) -/

/-- `IntentMetadata` (the unused display fields keep their pydantic
defaults). -/
structure IntentMetadata where
  id : String
  name : String := ""
  description : String := ""
  category : String := ""
  version : String := "1.0.0"
  priority : Int := 0
  tags : List String := []
  timeout : Nat := 30
  retry_count : Nat := 0
  can_parallel : Bool := true
  dependencies : List String := []
  conflicts : List String := []

/-- One entry of `InputOutputSchema.inputs`: in the source a raw dict with
optional keys `type`, `required`, `default`, `enum` (`ty` because `type` is a
Lean keyword; an absent optional key is `Option.none`, and `required` absent
defaults to the `get("required", False)` at its use sites). -/
structure ParamSpec where
  ty : Option String := Option.none
  required : Bool := false
  default : Option Value := Option.none
  enum : Option (List Value) := Option.none

/-- `InputOutputSchema`. -/
structure InputOutputSchema where
  inputs : List (String × ParamSpec) := []
  outputs : List (String × ParamSpec) := []
  output_mapping : List (String × String) := []

/-- Result of one invocation of a task's executable unit: a returned value or
a raised exception carrying `str(e)`. -/
inductive ExecOutcome where
  | ok (v : Value)
  | raise (msg : String)

/-- `IntentDefinition`.  The Python executable unit is an arbitrary callable,
possibly a stateful closure; it is embedded as a pure function of the call's
keyword arguments and of how many times this task's unit was invoked before
(the closure state the retry scenarios need), plus an `isAsync` flag standing
for `asyncio.iscoroutinefunction(executor)`. -/
structure IntentDefinition where
  metadata : IntentMetadata
  schema : InputOutputSchema
  executor : List (String × Value) → Nat → ExecOutcome
  isAsync : Bool := false

/-- The type-tag dispatch chain of `InputOutputSchema.validate_input`
(`isinstance(True, int)` holds in Python, so `integer`/`number` accept
booleans). -/
def typeCheckErr (param_name : String) (ty : Option String) (v : Value) : Option String :=
  match ty with
  | some "string" =>
    (match v with
     | .str _ => Option.none
     | _ => some ("参数 " ++ param_name ++ " 应为字符串类型"))
  | some "integer" =>
    (match v with
     | .int _ => Option.none
     | .bool _ => Option.none
     | _ => some ("参数 " ++ param_name ++ " 应为整数类型"))
  | some "number" =>
    (match v with
     | .int _ => Option.none
     | .float _ => Option.none
     | .bool _ => Option.none
     | _ => some ("参数 " ++ param_name ++ " 应为数字类型"))
  | some "boolean" =>
    (match v with
     | .bool _ => Option.none
     | _ => some ("参数 " ++ param_name ++ " 应为布尔类型"))
  | some "array" =>
    (match v with
     | .list _ => Option.none
     | _ => some ("参数 " ++ param_name ++ " 应为数组类型"))
  | some "object" =>
    (match v with
     | .dict _ => Option.none
     | _ => some ("参数 " ++ param_name ++ " 应为对象类型"))
  | _ => Option.none

/-- The parameter loop of `InputOutputSchema.validate_input`. -/
def validateInputLoop : List (String × ParamSpec) → List (String × Value) →
    Bool × Option String
  | [], _ => (true, Option.none)
  | (param_name, spec) :: rest, data =>
    if spec.required && !alContains data param_name then
      (false, some ("缺少必需参数: " ++ param_name))
    else
      match alGet data param_name with
      | some v =>
        (match typeCheckErr param_name spec.ty v with
         | some e => (false, some e)
         | Option.none =>
           match spec.enum with
           | some es =>
             if !es.any (valueBeq v ·) then
               (false, some ("参数 " ++ param_name ++ " 的值应在 "
                 ++ pyRepr (.list es) ++ " 中"))
             else validateInputLoop rest data
           | Option.none => validateInputLoop rest data)
      | Option.none => validateInputLoop rest data

/-- `InputOutputSchema.validate_input` /
`IntentDefinition.validate_inputs`. -/
def validate_input (sch : InputOutputSchema) (data : List (String × Value)) :
    Bool × Option String :=
  validateInputLoop sch.inputs data

/-! ### `IntentRegistry` (`core/intent_registry.py`) -/

/-- The three stores of an `IntentRegistry`; the `defaultdict(list)` indexes
materialise a key on first access. -/
structure IntentRegistry where
  intents : List (String × IntentDefinition) := []
  categories : List (String × List String) := []
  tags_index : List (String × List String) := []

/-- One index-append step, `self._index[key].append(intent_id)` — used for
the category index and for each tag of the tag index, which the source
updates with this identical statement. -/
def indexAppend (intent_id : String) (idx : List (String × List String))
    (key : String) : List (String × List String) :=
  alSet idx key (alGetD idx key [] ++ [intent_id])

/-- One index-removal step: the guarded `list.remove` erases the first
occurrence; the `defaultdict` read keeps the key materialised. -/
def indexRemove (intent_id : String) (idx : List (String × List String))
    (key : String) : List (String × List String) :=
  let key_list := alGetD idx key []
  alSet idx key (if key_list.contains intent_id then key_list.erase intent_id
                 else key_list)

/-- `IntentRegistry.register`; `Except.error` models the raised
`ValueError`. -/
def register (r : IntentRegistry) (intent : IntentDefinition) :
    Except String IntentRegistry :=
  let intent_id := intent.metadata.id
  if alContains r.intents intent_id then
    .error ("Intent ID \x27" ++ intent_id ++ "\x27 already registered")
  else
    .ok { intents := alSet r.intents intent_id intent,
          categories := indexAppend intent_id r.categories intent.metadata.category,
          tags_index := intent.metadata.tags.foldl (indexAppend intent_id) r.tags_index }

/-- `IntentRegistry.unregister`. -/
def unregister (r : IntentRegistry) (intent_id : String) :
    Bool × IntentRegistry :=
  match alGet r.intents intent_id with
  | Option.none => (false, r)
  | some intent =>
    (true, { intents := alErase r.intents intent_id,
             categories := indexRemove intent_id r.categories intent.metadata.category,
             tags_index :=
               intent.metadata.tags.foldl (indexRemove intent_id) r.tags_index })

/-- `IntentRegistry.get`. -/
def registryGet (r : IntentRegistry) (intent_id : String) : Option IntentDefinition :=
  alGet r.intents intent_id

/-! ### `IntentOrchestrator` (`orchestration/orchestrator.py`)

Parameter maps are modelled at `String` values, the type the produced plan
declares for them (`data_mappings : Dict[str, Dict[str, str]]`). -/

/-- One entry of `IntentParseResult.sub_intents` (`{"id": .., "parameters": ..}`). -/
structure SubIntent where
  id : String
  parameters : List (String × String) := []

/-- `IntentParseResult` restricted to the fields `orchestrate` reads
(`confidence` and `reasoning` never influence planning). -/
structure IntentParseResult where
  primary_intent : String
  sub_intents : List SubIntent := []
  parameters : List (String × String) := []
  dependencies : List String := []

/-- `IntentParseResult.get_all_intent_ids`. -/
def get_all_intent_ids (pr : IntentParseResult) : List String :=
  pr.primary_intent :: pr.sub_intents.map (·.id)

/-- `IntentParseResult.get_intent_parameters`. -/
def get_intent_parameters (pr : IntentParseResult) (intent_id : String) :
    List (String × String) :=
  if intent_id = pr.primary_intent then pr.parameters
  else
    match pr.sub_intents.find? (fun sub => sub.id = intent_id) with
    | some sub => sub.parameters
    | Option.none => []

/-- `IntentOrchestrationPlan`. -/
structure IntentOrchestrationPlan where
  execution_graph : List (String × List String) := []
  execution_layers : List (List String) := []
  data_mappings : List (String × List (String × String)) := []
  execution_order : List String := []

/-- `IntentOrchestrator._build_dependency_graph`: adjacency maps a node to
the tasks depending on it, built from registered `dependencies` plus the
parsed `"A depends on B"` hints restricted to known nodes. -/
def build_dependency_graph (reg : IntentRegistry) (intent_ids : List String)
    (additional_dependencies : List String) : List (String × List String) :=
  let graph := intent_ids.foldl
    (fun g i => if alContains g i then g else g ++ [(i, [])]) []
  let graph := intent_ids.foldl
    (fun g intent_id =>
      match alGet reg.intents intent_id with
      | some intent_def =>
        intent_def.metadata.dependencies.foldl
          (fun g dep_id =>
            if alContains g dep_id then alSet g dep_id (alGetD g dep_id [] ++ [intent_id])
            else g)
          g
      | Option.none => g)
    graph
  additional_dependencies.foldl
    (fun g dep_relation =>
      match py_split dep_relation " depends on " with
      | [a, b] =>
        let intent_id := py_strip a
        let dep_id := py_strip b
        if alContains g intent_id && alContains g dep_id then
          alSet g dep_id (alGetD g dep_id [] ++ [intent_id])
        else g
      | _ => g)
    graph

/-- The Kahn queue loop of `IntentOrchestrator._topological_sort`.  The fuel
only needs to dominate the number of enqueues (each node enters the queue at
most twice over a run), so `2·|graph| + 2` is always enough; running out
returns the partial result, which the caller's length check then reports as a
cycle exactly as an exhausted queue would. -/
def topoLoop (graph : List (String × List String)) :
    Nat → List String → List (String × Int) → List String → List String
  | 0, _, _, result => result
  | _ + 1, [], _, result => result
  | fuel + 1, node :: queue, in_degree, result =>
    let step := (alGetD graph node []).foldl
      (fun (p : List (String × Int) × List String) dependent =>
        let d := alSet p.1 dependent (alGetD p.1 dependent 0 - 1)
        if alGetD d dependent 0 = 0 then (d, p.2 ++ [dependent]) else (d, p.2))
      (in_degree, queue)
    topoLoop graph fuel step.2 step.1 (result ++ [node])

/-- `IntentOrchestrator._topological_sort`; `Except.error` models the raised
`ValueError("检测到循环依赖")`. -/
def topological_sort (graph : List (String × List String)) :
    Except String (List String) :=
  let in_degree := graph.foldl (fun d p => d ++ [(p.1, (0 : Int))]) []
  let in_degree := graph.foldl
    (fun d p =>
      p.2.foldl
        (fun d dependent =>
          if alContains d dependent then alSet d dependent (alGetD d dependent 0 + 1)
          else d)
        d)
    in_degree
  let queue := (in_degree.filter (fun p => p.2 = 0)).map (·.1)
  let result := topoLoop graph (2 * graph.length + 2) queue in_degree []
  if result.length ≠ graph.length then .error "检测到循环依赖"
  else .ok result

/-- `IntentOrchestrator._get_dependencies`: all nodes whose adjacency list
contains `node` (direct dependencies only). -/
def get_dependencies (node : String) (graph : List (String × List String)) :
    List String :=
  graph.foldl (fun deps p => if p.2.contains node then deps ++ [p.1] else deps) []

/-- The `can_join` scan over one layer in
`IntentOrchestrator._build_execution_layers`. -/
def canJoinLayer (node : String) (dependencies : List String)
    (graph : List (String × List String)) (layer : List String) : Bool :=
  layer.all (fun placed_node =>
    !dependencies.contains placed_node
      && !(get_dependencies placed_node graph).contains node)

/-- Append `node` to the first joinable layer, if any. -/
def placeNode (node : String) (dependencies : List String)
    (graph : List (String × List String)) :
    List (List String) → Option (List (List String))
  | [] => Option.none
  | layer :: rest =>
    if canJoinLayer node dependencies graph layer then some ((layer ++ [node]) :: rest)
    else (placeNode node dependencies graph rest).map (layer :: ·)

/-- `IntentOrchestrator._build_execution_layers`. -/
def build_execution_layers (graph : List (String × List String))
    (execution_order : List String) : List (List String) :=
  (execution_order.foldl
    (fun (st : List (List String) × List String) node =>
      let dependencies := get_dependencies node graph
      if !dependencies.all (st.2.contains ·) then st
      else
        match placeNode node dependencies graph st.1 with
        | some layers => (layers, st.2 ++ [node])
        | Option.none => (st.1 ++ [[node]], st.2 ++ [node]))
    ([], [])).1

/-- `IntentOrchestrator._generate_data_mappings`. -/
def generate_data_mappings (reg : IntentRegistry) (intent_ids : List String)
    (parse_result : IntentParseResult) (context : Option (List (String × Value))) :
    List (String × List (String × String)) :=
  intent_ids.foldl
    (fun mappings intent_id =>
      match alGet reg.intents intent_id with
      | Option.none => mappings
      | some intent_def =>
        let intent_params := get_intent_parameters parse_result intent_id
        let input_mapping := intent_def.schema.inputs.foldl
          (fun m p =>
            let param_name := p.1
            if alContains intent_params param_name then
              alSet m param_name (alGetD intent_params param_name "")
            else if alContains parse_result.parameters param_name then
              alSet m param_name (alGetD parse_result.parameters param_name "")
            else if (match context with
                     | some c => !c.isEmpty && alContains c param_name
                     | Option.none => false) then
              alSet m param_name ("\x7b\x7b $json." ++ param_name ++ " \x7d\x7d")
            else
              match p.2.default with
              | some dv => alSet m param_name (pyStr dv)
              | Option.none => m)
          []
        alSet mappings intent_id input_mapping)
    []

/-- `IntentOrchestrator.orchestrate`: the `ValueError` from a failed
topological sort is caught and the caller-supplied order used unchanged. -/
def orchestrate (reg : IntentRegistry) (parse_result : IntentParseResult)
    (context : Option (List (String × Value))) : IntentOrchestrationPlan :=
  let all_intents := get_all_intent_ids parse_result
  if all_intents.isEmpty then {}
  else
    let dependency_graph :=
      build_dependency_graph reg all_intents parse_result.dependencies
    let execution_order :=
      match topological_sort dependency_graph with
      | .ok order => order
      | .error _ => all_intents
    let execution_layers := build_execution_layers dependency_graph execution_order
    let data_mappings :=
      generate_data_mappings reg all_intents parse_result context
    { execution_graph := dependency_graph,
      execution_layers := execution_layers,
      data_mappings := data_mappings,
      execution_order := execution_order }

/-! ### `ExecutionTracker` (`execution/execution_tracker.py`) and
`IntentExecutor` (`execution/intent_executor.py`)

`time.time()` is a logical clock ticking once per read; the per-object call
counters in `calls` carry the closure state of the Python executables.  A
Python trace object is mutated through its identity; here a trace is addressed
by its index in `traces`. -/

/-- `IntentExecutionTrace`. -/
structure IntentExecutionTrace where
  intent_id : String
  start_time : Nat
  end_time : Option Nat := Option.none
  status : String := "pending"
  input_data : List (String × Value) := []
  output_data : Value := .none
  error : Option String := Option.none
  retry_count : Nat := 0

/-- The mutable state of one `IntentExecutor` (which owns its
`ExecutionTracker`), plus the embedding's clock and executable-closure
counters. -/
structure ExecState where
  current_session_id : Option String := Option.none
  traces : List IntentExecutionTrace := []
  data_context : List (String × Value) := []
  clock : Nat := 0
  calls : List (String × Nat) := []

/-- In-place update of one list position (Python object mutation). -/
def listModify {α : Type} : List α → Nat → (α → α) → List α
  | [], _, _ => []
  | a :: t, 0, f => f a :: t
  | a :: t, n + 1, f => a :: listModify t n f

/-- One `time.time()` read. -/
def tick (st : ExecState) : Nat × ExecState :=
  (st.clock, { st with clock := st.clock + 1 })

/-- `ExecutionTracker.start_session`. -/
def start_session (st : ExecState) (session_id : String) : ExecState :=
  { st with current_session_id := some session_id, traces := [], data_context := [] }

/-- `ExecutionTracker.end_session` (its summary dict is returned to callers
that all discard it; the session id is cleared). -/
def end_session (st : ExecState) : ExecState :=
  { st with current_session_id := Option.none }

/-- `ExecutionTracker.start_intent`: append a fresh running trace, returning
its index. -/
def start_intent (st : ExecState) (intent_id : String)
    (input_data : List (String × Value)) : Nat × ExecState :=
  let (t, st) := tick st
  (st.traces.length,
   { st with traces := st.traces ++
      [{ intent_id := intent_id, start_time := t, status := "running",
         input_data := input_data }] })

/-- `ExecutionTracker.complete_intent`: close the trace and, on an
error-free non-`None` output, write it into the data context under the
trace's intent id — the only write to the context. -/
def complete_intent (st : ExecState) (idx : Nat) (output_data : Value)
    (error : Option String) : ExecState :=
  let (t, st) := tick st
  let st := { st with
    traces := listModify st.traces idx (fun tr =>
      { tr with end_time := some t, output_data := output_data,
                status := if error.isNone then "success" else "failed",
                error := error }) }
  if error.isNone && !output_data.isNone then
    match st.traces.get? idx with
    | some tr => { st with data_context := alSet st.data_context tr.intent_id output_data }
    | Option.none => st
  else st

/-- `ExecutionTracker.fail_intent`. -/
def fail_intent (st : ExecState) (idx : Nat) (error : String) : ExecState :=
  complete_intent st idx .none (some error)

/-- `ExecutionTracker.retry_intent`: bump the retry count and rewind the
trace to running. -/
def retry_intent (st : ExecState) (idx : Nat) : ExecState :=
  let (t, st) := tick st
  { st with traces := listModify st.traces idx (fun tr =>
      { tr with retry_count := tr.retry_count + 1, start_time := t,
                status := "running", error := Option.none }) }

/-- Invoke a task's executable unit: look up and bump its invocation
counter, then apply the pure executor function. -/
def callExecutor (st : ExecState) (intent_def : IntentDefinition)
    (input_data : List (String × Value)) : ExecOutcome × ExecState :=
  let n := alGetD st.calls intent_def.metadata.id 0
  (intent_def.executor input_data n,
   { st with calls := alSet st.calls intent_def.metadata.id (n + 1) })

/-- `IntentExecutor.execute_single_intent` (synchronous).  `Except.error`
models the raised exception's `str`.  The recursion retries through a fresh
`start_intent` exactly as the source does; since a fresh trace restarts
`retry_count` at 0, an always-failing unit with a positive retry budget
recurses forever, hence the fuel (`Option.none` = divergence).  Timeouts are
real-time and outside the model: `asyncio.wait_for` is transparent here and
the `timeout` argument is only threaded through. -/
def execute_single_intent (reg : IntentRegistry) :
    Nat → String → List (String × Value) → Option Nat → ExecState →
    Option (Except String Value × ExecState)
  | 0, _, _, _, _ => Option.none
  | fuel + 1, intent_id, input_data, timeout, st =>
    match alGet reg.intents intent_id with
    | Option.none => some (.error ("Intent \x27" ++ intent_id ++ "\x27 not found"), st)
    | some intent_def =>
      let p := start_intent st intent_id input_data
      let idx := p.1
      let st := p.2
      let v := validate_input intent_def.schema input_data
      if !v.1 then
        let msg := (v.2).getD "None"
        let st := fail_intent st idx msg
        some (.error ("Input validation failed: " ++ msg), st)
      else
        let q := callExecutor st intent_def input_data
        let st := q.2
        match q.1 with
        | .ok result => some (.ok result, complete_intent st idx result Option.none)
        | .raise e =>
          let st := fail_intent st idx e
          let rc := match st.traces.get? idx with
                    | some tr => tr.retry_count
                    | Option.none => 0
          if rc < intent_def.metadata.retry_count then
            execute_single_intent reg fuel intent_id input_data timeout (retry_intent st idx)
          else
            some (.error e, st)

/-- `IntentExecutor.execute_single_intent_async`.  Identical control flow,
except that a synchronous executable is launched through
`loop.run_in_executor(None, executor, **input_data)`, which accepts no
keyword arguments: with a non-empty input it raises `TypeError` inside the
`try`, entering the same fail/retry path without invoking the unit. -/
def execute_single_intent_async (reg : IntentRegistry) :
    Nat → String → List (String × Value) → Option Nat → ExecState →
    Option (Except String Value × ExecState)
  | 0, _, _, _, _ => Option.none
  | fuel + 1, intent_id, input_data, timeout, st =>
    match alGet reg.intents intent_id with
    | Option.none => some (.error ("Intent \x27" ++ intent_id ++ "\x27 not found"), st)
    | some intent_def =>
      let p := start_intent st intent_id input_data
      let idx := p.1
      let st := p.2
      let v := validate_input intent_def.schema input_data
      if !v.1 then
        let msg := (v.2).getD "None"
        let st := fail_intent st idx msg
        some (.error ("Input validation failed: " ++ msg), st)
      else
        let q : ExecOutcome × ExecState :=
          if intent_def.isAsync then callExecutor st intent_def input_data
          else
            match input_data with
            | [] => callExecutor st intent_def []
            | (k, _) :: _ =>
              (.raise ("run_in_executor() got an unexpected keyword argument \x27"
                 ++ k ++ "\x27"), st)
        let st := q.2
        match q.1 with
        | .ok result => some (.ok result, complete_intent st idx result Option.none)
        | .raise e =>
          let st := fail_intent st idx e
          let rc := match st.traces.get? idx with
                    | some tr => tr.retry_count
                    | Option.none => 0
          if rc < intent_def.metadata.retry_count then
            execute_single_intent_async reg fuel intent_id input_data timeout
              (retry_intent st idx)
          else
            some (.error e, st)

/-- The per-task loop of `IntentExecutor.execute_layer_sync`: resolve the
mapping against the tracker's current data context, run, record; a raised
task exception propagates out of the layer. -/
def executeLayerSyncAux (reg : IntentRegistry) (fuel : Nat)
    (plan : IntentOrchestrationPlan) :
    List String → List (String × Value) → ExecState →
    Option (Except String (List (String × Value)) × ExecState)
  | [], results, st => some (.ok results, st)
  | intent_id :: rest, results, st =>
    let mapping := alGetD plan.data_mappings intent_id []
    let input_data := resolve_mapping mapping st.data_context
    match execute_single_intent reg fuel intent_id input_data Option.none st with
    | Option.none => Option.none
    | some (.error e, st') => some (.error e, st')
    | some (.ok result, st') =>
      executeLayerSyncAux reg fuel plan rest (alSet results intent_id result) st'

/-- `IntentExecutor.execute_layer_sync`. -/
def execute_layer_sync (reg : IntentRegistry) (fuel : Nat) (layer : List String)
    (plan : IntentOrchestrationPlan) (st : ExecState) :
    Option (Except String (List (String × Value)) × ExecState) :=
  executeLayerSyncAux reg fuel plan layer [] st

/-- The layer loop of `IntentExecutor.execute_plan`; the `finally` runs
`end_session` on both the normal and the exceptional exit. -/
def executePlanAux (reg : IntentRegistry) (fuel : Nat)
    (plan : IntentOrchestrationPlan) :
    List (List String) → List (String × Value) → ExecState →
    Option (Except String (List (String × Value)) × ExecState)
  | [], results, st => some (.ok results, end_session st)
  | layer :: rest, results, st =>
    match execute_layer_sync reg fuel layer plan st with
    | Option.none => Option.none
    | some (.error e, st') => some (.error e, end_session st')
    | some (.ok layer_results, st') =>
      executePlanAux reg fuel plan rest (dict_update results layer_results) st'

/-- `IntentExecutor.execute_plan` (synchronous). -/
def execute_plan (reg : IntentRegistry) (fuel : Nat)
    (plan : IntentOrchestrationPlan) (session_id : Option String)
    (st : ExecState) :
    Option (Except String (List (String × Value)) × ExecState) :=
  executePlanAux reg fuel plan plan.execution_layers []
    (start_session st (session_id.getD "default"))

/-- `IntentExecutor._execute_intent_in_layer`. -/
def execute_intent_in_layer (reg : IntentRegistry) (fuel : Nat)
    (intent_id : String) (plan : IntentOrchestrationPlan) (st : ExecState) :
    Option (Except String Value × ExecState) :=
  let mapping := alGetD plan.data_mappings intent_id []
  let input_data := resolve_mapping mapping st.data_context
  execute_single_intent_async reg fuel intent_id input_data Option.none st

/-- `IntentExecutor.execute_layer_async`.  `asyncio.gather` with
`return_exceptions=True` runs the single-threaded coroutines of the layer in
task order and pairs each task with its own slot; a raised exception becomes
the `{"error": str(e)}` entry for that task only. -/
def executeLayerAsyncAux (reg : IntentRegistry) (fuel : Nat)
    (plan : IntentOrchestrationPlan) :
    List String → List (String × Value) → ExecState →
    Option (List (String × Value) × ExecState)
  | [], results, st => some (results, st)
  | intent_id :: rest, results, st =>
    match execute_intent_in_layer reg fuel intent_id plan st with
    | Option.none => Option.none
    | some (r, st') =>
      let v := match r with
               | .ok v => v
               | .error e => Value.dict [("error", .str e)]
      executeLayerAsyncAux reg fuel plan rest (alSet results intent_id v) st'

/-- `IntentExecutor.execute_layer_async` over a whole layer. -/
def execute_layer_async (reg : IntentRegistry) (fuel : Nat) (layer : List String)
    (plan : IntentOrchestrationPlan) (st : ExecState) :
    Option (List (String × Value) × ExecState) :=
  executeLayerAsyncAux reg fuel plan layer [] st

/-- The layer loop of `IntentExecutor.execute_plan_async`. -/
def executePlanAsyncAux (reg : IntentRegistry) (fuel : Nat)
    (plan : IntentOrchestrationPlan) :
    List (List String) → List (String × Value) → ExecState →
    Option (List (String × Value) × ExecState)
  | [], results, st => some (results, end_session st)
  | layer :: rest, results, st =>
    match execute_layer_async reg fuel layer plan st with
    | Option.none => Option.none
    | some (layer_results, st') =>
      executePlanAsyncAux reg fuel plan rest (dict_update results layer_results) st'

/-- `IntentExecutor.execute_plan_async`. -/
def execute_plan_async (reg : IntentRegistry) (fuel : Nat)
    (plan : IntentOrchestrationPlan) (session_id : Option String)
    (st : ExecState) :
    Option (List (String × Value) × ExecState) :=
  executePlanAsyncAux reg fuel plan plan.execution_layers []
    (start_session st (session_id.getD "default"))

/-! ## Supporting lemmas -/

theorem alGet_alSet {α : Type} (l : List (String × α)) (key key' : String) (v : α) :
    alGet (alSet l key v) key' = if key = key' then some v else alGet l key' := by
  induction l with
  | nil => by_cases h : key = key' <;> simp [alSet, alGet, h]
  | cons p t ih =>
    obtain ⟨k, w⟩ := p
    by_cases h1 : k = key <;> by_cases h2 : key = key' <;>
      simp_all [alSet, alGet]

theorem alGetD_alSet {α : Type} (l : List (String × α)) (key key' : String)
    (v dflt : α) :
    alGetD (alSet l key v) key' dflt = if key = key' then v else alGetD l key' dflt := by
  unfold alGetD
  rw [alGet_alSet]
  split_ifs <;> simp

theorem alContains_alSet {α : Type} (l : List (String × α)) (key key' : String)
    (v : α) :
    alContains (alSet l key v) key' = if key = key' then true else alContains l key' := by
  unfold alContains
  rw [alGet_alSet]
  split_ifs <;> simp

theorem mem_of_alGet {α : Type} {l : List (String × α)} {t : String} {xs : α}
    (h : alGet l t = some xs) : (t, xs) ∈ l := by
  induction l with
  | nil => simp [alGet] at h
  | cons p tl ih =>
    obtain ⟨k, w⟩ := p
    by_cases hk : k = t
    · subst hk
      simp [alGet] at h
      simp [h]
    · simp [alGet, hk] at h
      exact List.mem_cons_of_mem _ (ih h)

theorem alGet_of_mem_nodup {α : Type} {l : List (String × α)}
    (hnd : (l.map Prod.fst).Nodup) {t : String} {xs : α}
    (hm : (t, xs) ∈ l) : alGet l t = some xs := by
  induction l with
  | nil => simp at hm
  | cons p tl ih =>
    obtain ⟨k, w⟩ := p
    simp only [List.map_cons, List.nodup_cons] at hnd
    rcases List.mem_cons.mp hm with heq | htl
    · cases heq
      simp [alGet]
    · have hk : k ≠ t := by
        intro hkt
        exact hnd.1 (hkt ▸ List.mem_map_of_mem Prod.fst htl)
      simp [alGet, hk]
      exact ih hnd.2 htl

theorem mem_fst_alSet {α : Type} {l : List (String × α)} {key x : String} {v : α}
    (h : x ∈ (alSet l key v).map Prod.fst) : x ∈ l.map Prod.fst ∨ x = key := by
  induction l with
  | nil => simp [alSet] at h; simp [h]
  | cons p tl ih =>
    obtain ⟨k, w⟩ := p
    by_cases hk : k = key
    · simp [alSet, hk] at h
      rcases h with h | h
      · subst hk; simp [h]
      · exact Or.inl (by simp [h])
    · simp [alSet, hk] at h
      rcases h with h | h
      · exact Or.inl (by simp [h])
      · rcases ih (by simpa using h) with h2 | h2
        · exact Or.inl (by simp; exact Or.inr (by simpa using h2))
        · exact Or.inr h2

theorem nodup_fst_alSet {α : Type} {l : List (String × α)} (key : String) (v : α)
    (hnd : (l.map Prod.fst).Nodup) : ((alSet l key v).map Prod.fst).Nodup := by
  induction l with
  | nil => simp [alSet]
  | cons p tl ih =>
    obtain ⟨k, w⟩ := p
    simp only [List.map_cons, List.nodup_cons] at hnd
    by_cases hk : k = key
    · simp [alSet, hk, List.nodup_cons]
      exact ⟨by simpa [hk] using hnd.1, hnd.2⟩
    · simp only [alSet, hk, if_false, List.map_cons, List.nodup_cons]
      refine ⟨fun hmem => ?_, ih hnd.2⟩
      rcases mem_fst_alSet hmem with h2 | h2
      · exact hnd.1 h2
      · exact hk h2

/-- Occurrences of `i` in the index list stored under key `t`. -/
def keyCount (i : String) (idx : List (String × List String)) (t : String) : Nat :=
  List.count i (alGetD idx t [])

theorem keyCount_indexAppend (i : String) (idx : List (String × List String))
    (tag t : String) :
    keyCount i (indexAppend i idx tag) t
      = keyCount i idx t + (if tag = t then 1 else 0) := by
  unfold keyCount indexAppend
  rw [alGetD_alSet]
  split_ifs with h
  · subst h
    simp [List.count_append]
  · rfl

theorem keyCount_indexRemove (i : String) (idx : List (String × List String))
    (tag t : String) :
    keyCount i (indexRemove i idx tag) t
      = keyCount i idx t - (if tag = t then 1 else 0) := by
  unfold keyCount indexRemove
  rw [alGetD_alSet]
  split_ifs with h hc
  · subst h
    rw [List.count_erase_self]
  · subst h
    have hni : i ∉ alGetD idx tag [] := by
      intro hmem
      exact hc (by simpa using hmem)
    rw [List.count_eq_zero.mpr hni]
  · rfl

theorem keyCount_foldl_indexAppend (tags : List String) (i : String)
    (idx : List (String × List String)) (t : String) :
    keyCount i (tags.foldl (indexAppend i) idx) t
      = keyCount i idx t + tags.count t := by
  induction tags generalizing idx with
  | nil => simp
  | cons a tl ih =>
    simp only [List.foldl_cons]
    rw [ih, keyCount_indexAppend, List.count_cons]
    simp only [beq_iff_eq]
    omega

theorem keyCount_foldl_indexRemove (tags : List String) (i : String)
    (idx : List (String × List String)) (t : String) :
    keyCount i (tags.foldl (indexRemove i) idx) t
      = keyCount i idx t - tags.count t := by
  induction tags generalizing idx with
  | nil => simp
  | cons a tl ih =>
    simp only [List.foldl_cons]
    rw [ih, keyCount_indexRemove, List.count_cons]
    simp only [beq_iff_eq]
    omega

theorem nodup_fst_foldl_indexAppend (tags : List String) (i : String)
    {idx : List (String × List String)} (hnd : (idx.map Prod.fst).Nodup) :
    ((tags.foldl (indexAppend i) idx).map Prod.fst).Nodup := by
  induction tags generalizing idx with
  | nil => exact hnd
  | cons a tl ih => exact ih (nodup_fst_alSet _ _ hnd)

theorem nodup_fst_foldl_indexRemove (tags : List String) (i : String)
    {idx : List (String × List String)} (hnd : (idx.map Prod.fst).Nodup) :
    ((tags.foldl (indexRemove i) idx).map Prod.fst).Nodup := by
  induction tags generalizing idx with
  | nil => exact hnd
  | cons a tl ih => exact ih (nodup_fst_alSet _ _ hnd)

theorem keyCount_eq_zero {i : String} {idx : List (String × List String)}
    (h : ∀ p ∈ idx, i ∉ p.2) (t : String) : keyCount i idx t = 0 := by
  unfold keyCount alGetD
  cases hg : alGet idx t with
  | none => simp
  | some xs =>
    simp only [Option.getD_some]
    exact List.count_eq_zero.mpr (h (t, xs) (mem_of_alGet hg))

theorem idFree_of_keyCount {i : String} {idx : List (String × List String)}
    (hnd : (idx.map Prod.fst).Nodup) (h : ∀ t, keyCount i idx t = 0) :
    ∀ p ∈ idx, i ∉ p.2 := by
  intro p hp hmem
  obtain ⟨t, xs⟩ := p
  have hg := alGet_of_mem_nodup hnd hp
  have hz := h t
  unfold keyCount alGetD at hz
  rw [hg] at hz
  simp only [Option.getD_some] at hz
  exact (List.count_eq_zero.mp hz) hmem

/-- Computation rule: successful registration. -/
theorem register_ok {r : IntentRegistry} {d : IntentDefinition}
    (h : alContains r.intents d.metadata.id = false) :
    register r d = .ok
      { intents := alSet r.intents d.metadata.id d,
        categories := indexAppend d.metadata.id r.categories d.metadata.category,
        tags_index := d.metadata.tags.foldl (indexAppend d.metadata.id) r.tags_index } := by
  simp only [register, h]
  rfl

/-- Computation rule: unregistering a present id. -/
theorem unregister_found {r : IntentRegistry} {i : String} {d : IntentDefinition}
    (h : alGet r.intents i = some d) :
    unregister r i = (true,
      { intents := alErase r.intents i,
        categories := indexRemove i r.categories d.metadata.category,
        tags_index := d.metadata.tags.foldl (indexRemove i) r.tags_index }) := by
  unfold unregister
  rw [h]

/-- The category and tag indexes of a registry contain no entry for `i`. -/
def idFreeOfIndexes (r : IntentRegistry) (i : String) : Prop :=
  (∀ p ∈ r.categories, i ∉ p.2) ∧ (∀ p ∈ r.tags_index, i ∉ p.2)

/-- Index well-formedness: no duplicate index keys.  Every state reachable
through the API has it: the indexes start empty and `alSet` preserves it. -/
def indexKeysNodup (r : IntentRegistry) : Prop :=
  (r.categories.map Prod.fst).Nodup ∧ (r.tags_index.map Prod.fst).Nodup

/-- Claim C9: registering a fresh definition and then unregistering its id
leaves the category and tag indexes free of that id, and `unregister`
returns `True` exactly when the id was registered. -/
theorem register_unregister_roundtrip (r : IntentRegistry) (d : IntentDefinition)
    (hnd : indexKeysNodup r)
    (hfree : idFreeOfIndexes r d.metadata.id)
    (hnew : alContains r.intents d.metadata.id = false) :
    (∃ r1, register r d = .ok r1 ∧ (unregister r1 d.metadata.id).1 = true ∧
       idFreeOfIndexes (unregister r1 d.metadata.id).2 d.metadata.id)
    ∧ (∀ (s : IntentRegistry) (j : String), (unregister s j).1 = alContains s.intents j) := by
  constructor
  · refine ⟨_, register_ok hnew, ?_⟩
    have hget : alGet (alSet r.intents d.metadata.id d) d.metadata.id = some d := by
      rw [alGet_alSet]
      simp
    rw [unregister_found hget]
    refine ⟨rfl, ?_, ?_⟩
    · -- category index is free of the id again
      apply idFree_of_keyCount
      · unfold indexRemove indexAppend
        exact nodup_fst_alSet _ _ (nodup_fst_alSet _ _ hnd.1)
      · intro t
        rw [keyCount_indexRemove, keyCount_indexAppend, keyCount_eq_zero hfree.1 t]
        omega
    · -- tag index is free of the id again
      apply idFree_of_keyCount
      · exact nodup_fst_foldl_indexRemove _ _ (nodup_fst_foldl_indexAppend _ _ hnd.2)
      · intro t
        rw [keyCount_foldl_indexRemove, keyCount_foldl_indexAppend,
          keyCount_eq_zero hfree.2 t]
        omega
  · intro s j
    unfold unregister alContains
    cases h : alGet s.intents j <;> simp [h]

/-- A do-nothing executable unit used by the concrete scenarios. -/
def execConst (s : String) : List (String × Value) → Nat → ExecOutcome :=
  fun _ _ => .ok (.str s)

/-- A definition with a category and a duplicated tag, to exercise the index
round trip. -/
def dRoundtrip : IntentDefinition :=
  { metadata := { id := "task1", category := "cat", tags := ["t1", "t1", "t2"] },
    schema := {}, executor := execConst "ok" }

/-- Witness for C9 at the empty registry. -/
theorem register_unregister_roundtrip_witness :
    (∃ r1, register {} dRoundtrip = .ok r1 ∧
       (unregister r1 dRoundtrip.metadata.id).1 = true ∧
       idFreeOfIndexes (unregister r1 dRoundtrip.metadata.id).2 dRoundtrip.metadata.id)
    ∧ (∀ (s : IntentRegistry) (j : String), (unregister s j).1 = alContains s.intents j) :=
  register_unregister_roundtrip {} dRoundtrip ⟨by simp, by simp⟩ ⟨by simp, by simp⟩ rfl

/-! ### Data-context frame lemmas for the executor -/

theorem listModify_get? {α : Type} (l : List α) (n : Nat) (f : α → α) :
    (listModify l n f).get? n = (l.get? n).map f := by
  induction l generalizing n with
  | nil => simp [listModify]
  | cons a t ih =>
    cases n with
    | zero => simp [listModify]
    | succ m => simpa [listModify] using ih m

theorem complete_intent_data_context (st : ExecState) (idx : Nat) (out : Value)
    (err : Option String) {tr : IntentExecutionTrace}
    (h : st.traces.get? idx = some tr) :
    (complete_intent st idx out err).data_context =
      if err.isNone && !out.isNone then alSet st.data_context tr.intent_id out
      else st.data_context := by
  unfold complete_intent tick
  simp only [listModify_get?, h, Option.map_some']
  split <;> rfl

theorem fail_intent_data_context (st : ExecState) (idx : Nat) (e : String) :
    (fail_intent st idx e).data_context = st.data_context := by
  unfold fail_intent complete_intent tick
  simp only [Option.isNone_some, Bool.false_and, Bool.false_eq_true, if_false]

theorem retry_intent_data_context (st : ExecState) (idx : Nat) :
    (retry_intent st idx).data_context = st.data_context := rfl

/-- A single task execution writes no data-context key other than its own
intent id (claim C3's true residue at the task level). -/
theorem execute_single_intent_ctx_frame (reg : IntentRegistry) :
    ∀ (fuel : Nat) (intent_id : String) (input : List (String × Value))
      (timeout : Option Nat) (st : ExecState) (pr : Except String Value × ExecState),
      execute_single_intent reg fuel intent_id input timeout st = some pr →
      ∀ k, k ≠ intent_id → alGet pr.2.data_context k = alGet st.data_context k := by
  intro fuel
  induction fuel with
  | zero =>
    intro intent_id input timeout st pr h
    simp [execute_single_intent] at h
  | succ n ih =>
    intro intent_id input timeout st pr h k hk
    simp only [execute_single_intent] at h
    split at h
    · -- unknown id: state unchanged
      cases h
      rfl
    · split at h
      · -- validation failure: fail_intent writes no context entry
        cases h
        show alGet (fail_intent _ _ _).data_context k = _
        rw [fail_intent_data_context]
        rfl
      · split at h
        · -- executable returned: complete_intent writes only the own id
          cases h
          show alGet (complete_intent _ _ _ _).data_context k = _
          have htr := List.get?_concat_length st.traces
            { intent_id := intent_id, start_time := st.clock,
              status := "running", input_data := input }
          rw [complete_intent_data_context _ _ _ _ htr]
          split
          · rw [alGet_alSet, if_neg (fun hcontra => hk hcontra.symm)]
            rfl
          · rfl
        · split at h
          · -- retry: fail_intent/retry_intent leave the context alone
            have hstep := ih intent_id input timeout _ pr h k hk
            rw [hstep, retry_intent_data_context, fail_intent_data_context]
            rfl
          · -- retries exhausted
            cases h
            show alGet (fail_intent _ _ _).data_context k = _
            rw [fail_intent_data_context]
            rfl

theorem executeLayerSyncAux_ctx_frame (reg : IntentRegistry) (fuel : Nat)
    (plan : IntentOrchestrationPlan) :
    ∀ (layer : List String) (acc : List (String × Value)) (st : ExecState)
      (pr : Except String (List (String × Value)) × ExecState),
      executeLayerSyncAux reg fuel plan layer acc st = some pr →
      ∀ k, k ∉ layer → alGet pr.2.data_context k = alGet st.data_context k := by
  intro layer
  induction layer with
  | nil =>
    intro acc st pr h k _
    cases h
    rfl
  | cons j rest ih =>
    intro acc st pr h k hk
    have hkj : k ≠ j := fun hc => hk (by simp [hc])
    have hkr : k ∉ rest := fun hm => hk (by simp [hm])
    simp only [executeLayerSyncAux] at h
    split at h
    · simp at h
    · rename_i e st2 heq
      cases h
      exact execute_single_intent_ctx_frame reg fuel j _ _ _ _ heq k hkj
    · rename_i result st2 heq
      exact (ih _ _ _ h k hkr).trans
        (execute_single_intent_ctx_frame reg fuel j _ _ _ _ heq k hkj)

/-- Claim C3 (amended): while a layer executes, the only data-context keys
that can change are the ids of the layer's own tasks; every other key still
resolves exactly as before the layer started.  (The outputs of tasks that
complete earlier in the layer, by contrast, are written immediately by
`complete_intent` and are visible to later siblings — see the
counterexample.) -/
theorem execute_layer_sync_context_frame (reg : IntentRegistry) (fuel : Nat)
    (layer : List String) (plan : IntentOrchestrationPlan) (st : ExecState)
    (pr : Except String (List (String × Value)) × ExecState)
    (h : execute_layer_sync reg fuel layer plan st = some pr) :
    ∀ k, k ∉ layer → alGet pr.2.data_context k = alGet st.data_context k :=
  executeLayerSyncAux_ctx_frame reg fuel plan layer [] st pr h

/-- Task `a` of the sibling scenario: returns `"va"`. -/
def defSiblingA : IntentDefinition :=
  { metadata := { id := "a" }, schema := {}, executor := execConst "va" }

/-- Task `b` of the sibling scenario: one optional input `p` mapped to the
expression `$a`, i.e. a lookup of task `a`'s output in the data context. -/
def defSiblingB : IntentDefinition :=
  { metadata := { id := "b" }, schema := { inputs := [("p", {})] },
    executor := execConst "vb" }

def regSibling : IntentRegistry :=
  { intents := [("a", defSiblingA), ("b", defSiblingB)] }

def planSibling : IntentOrchestrationPlan :=
  { execution_layers := [["a", "b"]],
    data_mappings := [("a", []), ("b", [("p", "$a")])] }

/-- Witness for the C3 frame theorem: running the one-layer plan leaves the
unrelated key `"z"` of the data context untouched. -/
theorem execute_layer_sync_context_frame_witness :
    ∃ pr, execute_layer_sync regSibling 10 ["a", "b"] planSibling {} = some pr ∧
      alGet pr.2.data_context "z" = alGet ({} : ExecState).data_context "z" :=
  ⟨_, rfl, execute_layer_sync_context_frame regSibling 10 ["a", "b"] planSibling {}
    _ rfl "z" (by decide)⟩

/-- Counterexample to claim C3 as stated: inside one layer, task `b`'s input
mapping is resolved against the live data context, so it observes sibling
`a`'s output `"va"`; a snapshot as of layer start (an empty context) would
have left the expression `$a` unresolved as the literal `"$a"`. -/
theorem layer_sibling_observes_output :
    ((execute_layer_sync regSibling 10 ["a", "b"] planSibling {}).map
        (fun pr => pr.2.traces.map
          (fun t => t.input_data.map (fun q => (q.1, pyStr q.2)))))
      = some [[], [("p", "va")]]
    ∧ ((resolve_mapping (alGetD planSibling.data_mappings "b" [])
          ({} : ExecState).data_context).map (fun q => (q.1, pyStr q.2)))
      = [("p", "$a")]
    ∧ [("p", "va")] ≠ [("p", "$a")] :=
  ⟨rfl, rfl, by decide⟩

/-! ### Result coverage of the asynchronous executor (claim C5) -/

theorem alContains_dict_update {α : Type} (l : List (String × α)) :
    ∀ (r : List (String × α)) (i : String),
      alContains (dict_update r l) i = (alContains r i || alContains l i) := by
  induction l with
  | nil => intro r i; simp [dict_update, alContains, alGet]
  | cons p t ih =>
    intro r i
    obtain ⟨k, v⟩ := p
    simp only [dict_update]
    rw [ih, alContains_alSet]
    by_cases hk : k = i <;> simp [hk, alContains, alGet]

theorem executeLayerAsyncAux_covers (reg : IntentRegistry) (fuel : Nat)
    (plan : IntentOrchestrationPlan) :
    ∀ (layer : List String) (acc : List (String × Value)) (st : ExecState)
      (pr : List (String × Value) × ExecState),
      executeLayerAsyncAux reg fuel plan layer acc st = some pr →
      ∀ i, (alContains acc i = true ∨ i ∈ layer) → alContains pr.1 i = true := by
  intro layer
  induction layer with
  | nil =>
    intro acc st pr h i hi
    cases h
    rcases hi with hacc | hmem
    · simpa using hacc
    · simp at hmem
  | cons j rest ih =>
    intro acc st pr h i hi
    simp only [executeLayerAsyncAux] at h
    split at h
    · simp at h
    · rename_i r st2 heq
      refine ih _ _ _ h i ?_
      rcases hi with hacc | hmem
      · left
        rw [alContains_alSet]
        split_ifs with hj
        · rfl
        · exact hacc
      · rcases List.mem_cons.mp hmem with hji | hrest
        · left
          rw [alContains_alSet]
          simp [hji]
        · exact Or.inr hrest

theorem executePlanAsyncAux_covers (reg : IntentRegistry) (fuel : Nat)
    (plan : IntentOrchestrationPlan) :
    ∀ (layers : List (List String)) (acc : List (String × Value)) (st : ExecState)
      (pr : List (String × Value) × ExecState),
      executePlanAsyncAux reg fuel plan layers acc st = some pr →
      ∀ i, (alContains acc i = true ∨ ∃ l ∈ layers, i ∈ l) →
        alContains pr.1 i = true := by
  intro layers
  induction layers with
  | nil =>
    intro acc st pr h i hi
    cases h
    rcases hi with hacc | ⟨l, hl, _⟩
    · simpa using hacc
    · simp at hl
  | cons L rest ih =>
    intro acc st pr h i hi
    simp only [executePlanAsyncAux] at h
    split at h
    · simp at h
    · rename_i lr st2 heq
      refine ih _ _ _ h i ?_
      rcases hi with hacc | ⟨l, hl, hmem⟩
      · left
        rw [alContains_dict_update]
        simp [hacc]
      · rcases List.mem_cons.mp hl with hlL | hrest
        · left
          rw [alContains_dict_update]
          have hcov := executeLayerAsyncAux_covers reg fuel plan L [] st (lr, st2)
            heq i (Or.inr (hlL ▸ hmem))
          simp [hcov]
        · exact Or.inr ⟨l, hrest, hmem⟩

/-- Claim C5 (amended): whenever the asynchronous plan executor completes, its
result map has an entry for every task of every layer — per-task failures
land as `{"error": str(e)}` entries in the failing task's own slot and abort
neither siblings nor later layers.  (The synchronous `execute_plan`, by
contrast, propagates the first failure and aborts — see the
counterexample.) -/
theorem execute_plan_async_covers_all_tasks (reg : IntentRegistry) (fuel : Nat)
    (plan : IntentOrchestrationPlan) (session_id : Option String) (st : ExecState)
    (pr : List (String × Value) × ExecState)
    (h : execute_plan_async reg fuel plan session_id st = some pr) :
    ∀ i, (∃ layer ∈ plan.execution_layers, i ∈ layer) → alContains pr.1 i = true :=
  fun i hi => executePlanAsyncAux_covers reg fuel plan plan.execution_layers []
    (start_session st (session_id.getD "default")) pr h i (Or.inr hi)

/-- `Except.ok`-ness, to state the abort of the synchronous plan run. -/
def exceptIsOk {ε α : Type} : Except ε α → Bool
  | .ok _ => true
  | .error _ => false

/-- An always-failing unit with no retry budget. -/
def defFailSync : IntentDefinition :=
  { metadata := { id := "f" }, schema := {}, executor := fun _ _ => .raise "boom" }

def defOkSync : IntentDefinition :=
  { metadata := { id := "g" }, schema := {}, executor := execConst "gv" }

def regFailPair : IntentRegistry :=
  { intents := [("f", defFailSync), ("g", defOkSync)] }

def planFailPair : IntentOrchestrationPlan :=
  { execution_layers := [["f", "g"]] }

/-- Counterexample to claim C5 as stated: under the synchronous
`execute_plan`, task `f`'s exhausted failure propagates as an exception —
the run yields no result map at all, and sibling `g` (whose slot the claim
requires) never even starts: the only trace is `f`'s. -/
theorem execute_plan_sync_aborts_on_failure :
    ((execute_plan regFailPair 10 planFailPair Option.none {}).map
        (fun pr => exceptIsOk pr.1)) = some false
    ∧ ((execute_plan regFailPair 10 planFailPair Option.none {}).map
        (fun pr => match pr.1 with | .error e => e | .ok _ => "")) = some "boom"
    ∧ ((execute_plan regFailPair 10 planFailPair Option.none {}).map
        (fun pr => pr.2.traces.map (·.intent_id))) = some ["f"] :=
  ⟨rfl, rfl, rfl⟩

/-- Async variants (`asyncio.iscoroutinefunction` true) for the coverage
witness: `f` always raises, `g` and a second-layer `h` succeed. -/
def defFailAsync : IntentDefinition :=
  { metadata := { id := "f" }, schema := {}, executor := fun _ _ => .raise "boom",
    isAsync := true }

def defOkAsyncG : IntentDefinition :=
  { metadata := { id := "g" }, schema := {}, executor := execConst "gv",
    isAsync := true }

def defOkAsyncH : IntentDefinition :=
  { metadata := { id := "h" }, schema := {}, executor := execConst "hv",
    isAsync := true }

def regAsyncTrio : IntentRegistry :=
  { intents := [("f", defFailAsync), ("g", defOkAsyncG), ("h", defOkAsyncH)] }

def planAsyncTrio : IntentOrchestrationPlan :=
  { execution_layers := [["f", "g"], ["h"]] }

/-- Witness for the C5 coverage theorem: the failing `f` surfaces as an
`{"error": "boom"}` entry while `g` and the later layer `h` still run and
report their outputs. -/
theorem execute_plan_async_covers_all_tasks_witness :
    ∃ pr, execute_plan_async regAsyncTrio 10 planAsyncTrio Option.none {} = some pr ∧
      alContains pr.1 "g" = true ∧
      pr.1 = [("f", .dict [("error", .str "boom")]), ("g", .str "gv"), ("h", .str "hv")] :=
  ⟨_, rfl,
   execute_plan_async_covers_all_tasks regAsyncTrio 10 planAsyncTrio Option.none {}
     _ rfl "g" ⟨["f", "g"], by decide, by decide⟩,
   rfl⟩

/-! ### Priority independence of the planner (claim C8) -/

theorem build_dependency_graph_ext (r1 r2 : IntentRegistry)
    (h : ∀ i, (alGet r1.intents i).map (fun d => d.metadata.dependencies)
            = (alGet r2.intents i).map (fun d => d.metadata.dependencies))
    (ids hints : List String) :
    build_dependency_graph r1 ids hints = build_dependency_graph r2 ids hints := by
  have h2 : ∀ (ids2 : List String) (g : List (String × List String)),
      ids2.foldl
        (fun g intent_id =>
          match alGet r1.intents intent_id with
          | some intent_def =>
            intent_def.metadata.dependencies.foldl
              (fun g dep_id =>
                if alContains g dep_id then
                  alSet g dep_id (alGetD g dep_id [] ++ [intent_id])
                else g)
              g
          | Option.none => g)
        g
      = ids2.foldl
        (fun g intent_id =>
          match alGet r2.intents intent_id with
          | some intent_def =>
            intent_def.metadata.dependencies.foldl
              (fun g dep_id =>
                if alContains g dep_id then
                  alSet g dep_id (alGetD g dep_id [] ++ [intent_id])
                else g)
              g
          | Option.none => g)
        g := by
    intro ids2
    induction ids2 with
    | nil => intro g; rfl
    | cons a t ih =>
      intro g
      simp only [List.foldl_cons]
      have ha := h a
      cases h3 : alGet r1.intents a with
      | none =>
        cases h4 : alGet r2.intents a with
        | none => simp only [h3, h4]; exact ih _
        | some d2 => rw [h3, h4] at ha; simp at ha
      | some d1 =>
        cases h4 : alGet r2.intents a with
        | none => rw [h3, h4] at ha; simp at ha
        | some d2 =>
          rw [h3, h4] at ha
          simp only [Option.map_some', Option.some.injEq] at ha
          simp only [h3, h4, ha]
          exact ih _
  simp only [build_dependency_graph]
  rw [h2]

/-- Claim C8 (amended): the planner never consults `metadata.priority`; two
registries that agree on which ids exist and on their declared dependencies
produce the same `execution_order` for every request, whatever their
priorities. -/
theorem orchestrate_priority_independent (r1 r2 : IntentRegistry)
    (pr : IntentParseResult) (ctx : Option (List (String × Value)))
    (h : ∀ i, (alGet r1.intents i).map (fun d => d.metadata.dependencies)
            = (alGet r2.intents i).map (fun d => d.metadata.dependencies)) :
    (orchestrate r1 pr ctx).execution_order = (orchestrate r2 pr ctx).execution_order := by
  by_cases he : (get_all_intent_ids pr).isEmpty
  · simp only [orchestrate, he, if_true]
  · simp only [orchestrate, he, if_false]
    rw [build_dependency_graph_ext r1 r2 h]
    rfl

/-- Two independent tasks where the later-listed one has the higher
priority. -/
def defPrioLo : IntentDefinition :=
  { metadata := { id := "lo", priority := 0 }, schema := {}, executor := execConst "lo" }

def defPrioHi : IntentDefinition :=
  { metadata := { id := "hi", priority := 5 }, schema := {}, executor := execConst "hi" }

def regPrio : IntentRegistry :=
  { intents := [("lo", defPrioLo), ("hi", defPrioHi)] }

/-- The same two tasks with priorities changed (and even reversed in
favour of `lo`). -/
def defPrioLo2 : IntentDefinition :=
  { metadata := { id := "lo", priority := 99 }, schema := {}, executor := execConst "lo" }

def defPrioHi2 : IntentDefinition :=
  { metadata := { id := "hi", priority := 1 }, schema := {}, executor := execConst "hi" }

def regPrio2 : IntentRegistry :=
  { intents := [("lo", defPrioLo2), ("hi", defPrioHi2)] }

/-- Requesting `lo` as primary and `hi` as the sole secondary task. -/
def prPrio : IntentParseResult :=
  { primary_intent := "lo", sub_intents := [{ id := "hi" }] }

/-- Counterexample to claim C8 as stated: with zero in-degree ties `lo`
(priority 0) and `hi` (priority 5), the higher-priority `hi` is dequeued
second, not first — the queue is plain FIFO over insertion order. -/
theorem priority_not_consulted_in_order :
    (orchestrate regPrio prPrio Option.none).execution_order = ["lo", "hi"]
    ∧ ¬ (List.indexOf "hi" (orchestrate regPrio prPrio Option.none).execution_order
        < List.indexOf "lo" (orchestrate regPrio prPrio Option.none).execution_order) := by
  refine ⟨rfl, ?_⟩
  rw [show (orchestrate regPrio prPrio Option.none).execution_order = ["lo", "hi"] from rfl]
  decide

/-- Witness for the C8 independence theorem: scrambling both priorities
leaves the order unchanged. -/
theorem orchestrate_priority_independent_witness :
    (orchestrate regPrio prPrio Option.none).execution_order
      = (orchestrate regPrio2 prPrio Option.none).execution_order :=
  orchestrate_priority_independent regPrio regPrio2 prPrio Option.none
    (by
      intro i
      simp only [regPrio, regPrio2, alGet]
      split_ifs <;> rfl)

/-! ### Cyclic-dependency handling (claim C1) -/

def defCycleA : IntentDefinition :=
  { metadata := { id := "A", dependencies := ["B"] }, schema := {},
    executor := execConst "av" }

def defCycleB : IntentDefinition :=
  { metadata := { id := "B", dependencies := ["A"] }, schema := {},
    executor := execConst "bv" }

def regCycle : IntentRegistry :=
  { intents := [("A", defCycleA), ("B", defCycleB)] }

def prCycle : IntentParseResult :=
  { primary_intent := "A", sub_intents := [{ id := "B" }] }

/-- Claim C1 evaluated on the code: the topological sort does raise on the
two-cycle `A ↔ B`, but `orchestrate` swallows the error and still returns a
plan whose `execution_order` is the caller-supplied order `["A", "B"]` (and
whose layering is empty) — it never surfaces a `CyclicDependency` error. -/
theorem cycle_fallback_returns_plan :
    topological_sort [("A", ["B"]), ("B", ["A"])] = .error "检测到循环依赖"
    ∧ orchestrate regCycle prCycle Option.none =
      { execution_graph := [("A", ["B"]), ("B", ["A"])],
        execution_layers := [],
        data_mappings := [("A", []), ("B", [])],
        execution_order := ["A", "B"] } :=
  ⟨rfl, rfl⟩

/-! ### Layering and dependency closure (claim C2) -/

def defStudy : IntentDefinition :=
  { metadata := { id := "study" }, schema := {}, executor := execConst "sv" }

def defDevelop : IntentDefinition :=
  { metadata := { id := "develop", dependencies := ["study"] }, schema := {},
    executor := execConst "dv" }

def defTest : IntentDefinition :=
  { metadata := { id := "test", dependencies := ["develop"] }, schema := {},
    executor := execConst "tv" }

def regSDLC : IntentRegistry :=
  { intents := [("study", defStudy), ("develop", defDevelop), ("test", defTest)] }

def prTestOnly : IntentParseResult := { primary_intent := "test" }

def prSDLCAll : IntentParseResult :=
  { primary_intent := "study",
    sub_intents := [{ id := "develop" }, { id := "test" }] }

/-- Claim C2 evaluated on the code.  Requesting `test` alone plans only
`["test"]` — dependencies are never pulled in.  Requesting all three tasks
yields the right topological order but layers `[["study", "test"],
["develop"]]`: `study` shares a layer with its transitive descendant `test`,
and `test` is even scheduled one layer before its direct dependency
`develop` (last conjunct), because the layering checks only direct edges. -/
theorem layering_ignores_transitive_dependencies :
    (orchestrate regSDLC prTestOnly Option.none).execution_order = ["test"]
    ∧ (orchestrate regSDLC prTestOnly Option.none).execution_layers = [["test"]]
    ∧ (orchestrate regSDLC prSDLCAll Option.none).execution_order
        = ["study", "develop", "test"]
    ∧ (orchestrate regSDLC prSDLCAll Option.none).execution_layers
        = [["study", "test"], ["develop"]]
    ∧ get_dependencies "test" (orchestrate regSDLC prSDLCAll Option.none).execution_graph
        = ["develop"] :=
  ⟨rfl, rfl, rfl, rfl, rfl⟩

/-! ### Retry accounting (claim C4) -/

/-- A unit that raises on its first two invocations and succeeds on the
third, with a retry budget of 2. -/
def defRetry : IntentDefinition :=
  { metadata := { id := "r", retry_count := 2 }, schema := {},
    executor := fun _ n => if n < 2 then .raise "boom" else .ok (.str "done") }

def regRetry : IntentRegistry := { intents := [("r", defRetry)] }

/-- Claim C4 evaluated on the code: the call does succeed with `"done"`, but
because each recursive retry opens a fresh trace, the tracker ends up with
three traces — two abandoned in status `running` with `retry_count = 1` and
the successful one with `retry_count = 0`.  No trace reports
`status = success` with `retry_count = 2` (second conjunct). -/
theorem retry_success_trace_shape :
    ((execute_single_intent regRetry 10 "r" [] Option.none {}).map
        (fun p => (p.1, p.2.traces.map (fun t => (t.status, t.retry_count)))))
      = some (Except.ok (Value.str "done"),
          [("running", 1), ("running", 1), ("success", 0)])
    ∧ ((execute_single_intent regRetry 10 "r" [] Option.none {}).map
        (fun p => p.2.traces.any (fun t => t.status == "success" && t.retry_count == 2)))
      = some false :=
  ⟨rfl, rfl⟩

/-! ### Reference-expression resolution (claim C6) -/

def ctxRefAB : List (String × Value) :=
  [("ref", .dict [("items", .list [.dict [("name", .str "a")],
                                   .dict [("name", .str "b")]])])]

def ctxRefEmpty : List (String × Value) :=
  [("ref", .dict [("items", .list [])])]

/-- Claim C6 evaluated on the code.  The spec's expression
`{{ ref.items[1].name }}` comes back as the literal in *both* contexts: the
compiled pattern only recognises the `$json.` prefix.  Even the parser's own
documented form with the prefix fails (third conjunct), because
`_parse_path` turns `items[1]` into the key `"[1"` (fourth conjunct), which
can never index a list.  Dotted paths without brackets do resolve (last
conjunct), and the unresolvable cases fall back to the literal rather than
raising. -/
theorem reference_expression_literal_fallback :
    evaluate "\x7b\x7b ref.items[1].name \x7d\x7d" ctxRefAB
      = .str "\x7b\x7b ref.items[1].name \x7d\x7d"
    ∧ evaluate "\x7b\x7b ref.items[1].name \x7d\x7d" ctxRefEmpty
      = .str "\x7b\x7b ref.items[1].name \x7d\x7d"
    ∧ evaluate "\x7b\x7b$json.ref.items[1].name\x7d\x7d" ctxRefAB
      = .str "\x7b\x7b$json.ref.items[1].name\x7d\x7d"
    ∧ parse_path "ref.items[1].name" = ["ref", "items", "[1", "name"]
    ∧ evaluate "\x7b\x7b$json.ref.name\x7d\x7d" [("ref", .dict [("name", .str "b")])]
      = .str "b" :=
  ⟨rfl, rfl, rfl, rfl, rfl⟩

/-! ### Required-parameter handling in data mappings (claim C7) -/

def defReq : IntentDefinition :=
  { metadata := { id := "t" },
    schema := { inputs := [("q", { required := true })] },
    executor := execConst "tv" }

def regReq : IntentRegistry := { intents := [("t", defReq)] }

def prReq : IntentParseResult := { primary_intent := "t" }

/-- Counterexample to claim C7 as stated: with the required parameter `q`
resolvable from no source, `orchestrate` raises nothing — it returns a plan
whose mapping for `t` simply omits `q`. -/
theorem required_unresolved_param_omitted :
    (orchestrate regReq prReq Option.none).data_mappings = [("t", [])]
    ∧ alContains (alGetD (orchestrate regReq prReq Option.none).data_mappings "t" []) "q"
      = false :=
  ⟨rfl, rfl⟩

/-- Five-parameter task exercising every source of the resolution chain:
`p1` task-specific, `p2` global, `p3` from the orchestration context, `p4`
schema default, `p5` required but unresolvable. -/
def defParams : IntentDefinition :=
  { metadata := { id := "u" },
    schema := { inputs := [("p1", {}), ("p2", {}), ("p3", {}),
                           ("p4", { default := some (.str "dflt") }),
                           ("p5", { required := true })] },
    executor := execConst "uv" }

def defParamsPrimary : IntentDefinition :=
  { metadata := { id := "w" }, schema := {}, executor := execConst "wv" }

def regParams : IntentRegistry :=
  { intents := [("w", defParamsPrimary), ("u", defParams)] }

def prParams : IntentParseResult :=
  { primary_intent := "w",
    sub_intents := [{ id := "u", parameters := [("p1", "v1")] }],
    parameters := [("p2", "v2")] }

def ctxParams : List (String × Value) := [("p3", .str "x")]

/-- Claim C7 (amended): the source chain task-specific → global → context
expression → schema default → omit is honoured, and a required parameter
with no source is silently omitted from the mapping; the error only surfaces
at execution time, when input validation rejects the resolved input with a
missing-required-parameter `ValueError` before the unit runs. -/
theorem data_mapping_priority_and_exec_time_validation :
    (orchestrate regParams prParams (some ctxParams)).data_mappings =
      [("w", []),
       ("u", [("p1", "v1"), ("p2", "v2"), ("p3", "\x7b\x7b $json.p3 \x7d\x7d"),
              ("p4", "dflt")])]
    ∧ ((execute_single_intent regParams 5 "u"
          (resolve_mapping
            (alGetD (orchestrate regParams prParams (some ctxParams)).data_mappings "u" [])
            [])
          Option.none {}).map
        (fun p => (p.1, p.2.traces.map (fun t => t.status))))
      = some (Except.error "Input validation failed: 缺少必需参数: p5", ["failed"]) :=
  ⟨rfl, rfl⟩

/-! ### Exception behaviour of expression evaluation (claim C10) -/

def ctxXs : List (String × Value) := [("xs", .list [.str "x", .str "y"])]

/-- On a string of `n` opening brackets the JSON value parser exhausts any
depth budget of at most `n`: every level consumes one bracket and recurses. -/
theorem parseJsonValueExc_replicate_lbracket :
    ∀ d m, d ≤ m → parseJsonValueExc d (List.replicate m '[') = .recursionError := by
  intro d
  induction d with
  | zero => intro m _; rfl
  | succ d ih =>
    intro m hdm
    obtain ⟨m1, rfl⟩ : ∃ m1, m = m1 + 1 := ⟨m - 1, by omega⟩
    rw [List.replicate_succ]
    rw [show parseJsonValueExc (d + 1) ('[' :: List.replicate m1 '[') =
        (match (List.replicate m1 '[').dropWhile jsonWs with
         | ']' :: r2 => JsonRes.ok (.list []) r2
         | r2 => parseJsonElemsGo (parseJsonValueExc d) (r2.length + 1) r2 []) from rfl]
    cases m1 with
    | zero =>
      have hd0 : d = 0 := by omega
      subst hd0
      rfl
    | succ m2 =>
      rw [List.replicate_succ]
      rw [show ('[' :: List.replicate m2 '[').dropWhile jsonWs =
          '[' :: List.replicate m2 '[' from rfl]
      show parseJsonElemsGo (parseJsonValueExc d)
          (('[' :: List.replicate m2 '[').length + 1) ('[' :: List.replicate m2 '[') []
          = .recursionError
      have hpv : parseJsonValueExc d ('[' :: List.replicate m2 '[') = .recursionError := by
        have h2 := ih (m2 + 1) (by omega)
        rwa [List.replicate_succ] at h2
      simp only [parseJsonElemsGo, hpv]

/-- `json.loads` on `'[' * n` with `n` at or beyond the recursion limit is the
uncaught `RecursionError`. -/
theorem json_loadsExc_replicate_lbracket (n : Nat) (h : pyRecursionLimit ≤ n) :
    json_loadsExc (String.mk (List.replicate n '[')) = .recursionError := by
  have h1 : parseJsonValueExc pyRecursionLimit
      (String.mk (List.replicate n '[')).data = .recursionError :=
    parseJsonValueExc_replicate_lbracket pyRecursionLimit n h
  simp only [json_loadsExc, h1]

/-- A string of opening square brackets never contains `\x7b\x7b`. -/
theorem listContainsSub_lbrace_replicate (n : Nat) :
    listContainsSub "\x7b\x7b".data (List.replicate n '[') = false := by
  induction n with
  | zero => rfl
  | succ n ih =>
    rw [List.replicate_succ]
    show (listIsPrefix "\x7b\x7b".data ('[' :: List.replicate n '[')
        || listContainsSub "\x7b\x7b".data (List.replicate n '[')) = false
    rw [ih]
    rfl

/-- Claim C10 (counterexample): `evaluate` is not exception-free.  On the
expression `\x7b\x7b$json.a.²\x7d\x7d` with a list bound to `a`, the path key
`²` passes `str.isdigit` (Unicode `Numeric_Type=Digit`), so
`_get_nested_value` calls `int('²')`, which raises
`ValueError: invalid literal for int() with base 10: '²'` — an exception
`evaluate` does not catch (its handlers cover only `json.JSONDecodeError` and
the literal branch's `int`/`float`), so the call raises instead of returning a
value. -/
theorem evaluate_raises_on_nondecimal_digit_key :
    evaluateExc "\x7b\x7b$json.a.²\x7d\x7d"
      [("a", Value.list [Value.int 1, Value.int 2])]
      = .error (.valueError "invalid literal for int() with base 10: \x27²\x27") := rfl

/-- Claim C10 (amended): outside the two uncaught exception paths, every
documented fallback returns normally — a JSON parse failure, an out-of-range
list index, a lookup through a non-map value, a non-numeric literal and a
missing `$name` lookup all come back as the literal expression, while the
successful reference, numeric and JSON paths produce values.  But `evaluate`
is not total: JSON input nested beyond the interpreter recursion limit raises
`RecursionError` out of `json.loads`, which `evaluate`'s handlers (covering
only `json.JSONDecodeError`) let escape. -/
theorem evaluate_fallbacks_outside_uncaught_paths :
    evaluateExc "\x7bnot json" [] = .ok (.str "\x7bnot json")
    ∧ evaluateExc "\x7b\x7b$json.xs.5\x7d\x7d" ctxXs
      = .ok (.str "\x7b\x7b$json.xs.5\x7d\x7d")
    ∧ evaluateExc "\x7b\x7b$json.xs.1\x7d\x7d" ctxXs = .ok (.str "y")
    ∧ evaluateExc "abc" [] = .ok (.str "abc")
    ∧ evaluateExc "3.x" [] = .ok (.str "3.x")
    ∧ evaluateExc "\x7b\x7b$json.a.b\x7d\x7d" [("a", .int 3)]
      = .ok (.str "\x7b\x7b$json.a.b\x7d\x7d")
    ∧ evaluateExc "$missing" [] = .ok (.str "$missing")
    ∧ evaluateExc "12" [] = .ok (.int 12)
    ∧ evaluateExc "\x7b\"a\": 1\x7d" [] = .ok (.dict [("a", .int 1)])
    ∧ evaluateExc (String.mk (List.replicate 3000 '[')) []
      = .error .recursionError := by
  refine ⟨rfl, rfl, rfl, rfl, rfl, rfl, rfl, rfl, rfl, ?_⟩
  have hc : strContainsSub (String.mk (List.replicate 3000 '[')) "\x7b\x7b" = false :=
    listContainsSub_lbrace_replicate 3000
  have hj : json_loadsExc (String.mk (List.replicate 3000 '[')) = .recursionError :=
    json_loadsExc_replicate_lbracket 3000 (by decide)
  have hd : py_startswith (String.mk (List.replicate 3000 '[')) "$" = false := rfl
  have hb : py_startswith (String.mk (List.replicate 3000 '[')) "[" = true := rfl
  unfold evaluateExc
  rw [hc, Bool.false_and, if_neg Bool.false_ne_true]
  rw [hd, Bool.false_and, if_neg Bool.false_ne_true]
  rw [hb, Bool.or_true, if_pos rfl]
  rw [hj]

end IntentSystem
